import Mathlib

/-
Verification of the tkyk0317/rust-compiler pipeline (symbol table, parser,
code generator) against its specification.  All definitions are shallow
embeddings of src/src/symbol.rs, src/src/ast.rs and src/src/asm.rs; Rust
panics and failed expects are modelled as none, and the parser and code
generator carry an explicit fuel argument for their mutual recursion.
-/

namespace RC

/-- Scopes of the symbol table (src/src/symbol.rs, enum Scope). -/
inductive Scope where
  | Global
  | Local (name : String)
  | Block (name : String)
  | Func
  | Unknown
deriving DecidableEq, Repr

/-- Value types (src/src/symbol.rs, enum Type; renamed Ty because Lean
reserves the word Type).  The Struct variant is the one the parser snapshot
src/src/ast.rs constructs; the symbol.rs snapshot under src predates it and
matches it only through its catch-all arms. -/
inductive Ty where
  | Int
  | Char
  | Short
  | Long
  | Unknown (s : String)
  | Struct (s : String)
deriving DecidableEq, Repr

/-- Structure kinds (src/src/symbol.rs, enum Structure; the Struct variant as
for Ty). -/
inductive Structure where
  | Identifier
  | Pointer
  | Array (dims : List Nat)
  | Struct
  | Unknown
deriving DecidableEq, Repr

/-- Modelled from the spec: src/src/ast.rs stores an ordered member list on
struct symbols (Symbol::regist_mem, sym.members), but the symbol.rs snapshot
under src predates that field.  A member entry records the data ast.rs passes
to Symbol::new for each member declaration (spec section 3, member-list). -/
structure MemberSym where
  scope : Scope
  var : String
  t : Ty
  strt : Structure
deriving DecidableEq, Repr

/-- Symbols (src/src/symbol.rs, struct Symbol).  The fields scope, var, t,
strt, pos and offset are the snapshot's own.  Modelled from the spec: the
size and members fields, which src/src/ast.rs reads (sym.size in
factor_sizeof and generate_lvalue_address, sym.members in struct_variable)
but whose defining symbol.rs revision is not under src; per spec sections 3
and 4.2 a symbol records its full byte footprint as its size. -/
structure Symbol where
  scope : Scope
  var : String
  t : Ty
  strt : Structure
  pos : Nat
  offset : Nat
  size : Nat
  members : List MemberSym
deriving DecidableEq, Repr

/-- Constructor (src/src/symbol.rs, Symbol::new). -/
def Symbol.new (scope : Scope) (var : String) (t : Ty) (strt : Structure) : Symbol :=
  { scope := scope, var := var, t := t, strt := strt, pos := 0, offset := 0,
    size := 0, members := [] }

/-- Member registration (src/src/ast.rs uses Symbol::regist_mem; modelled from
the spec as storing the member list on the symbol). -/
def Symbol.regist_mem (sym : Symbol) (ms : List MemberSym) : Symbol :=
  { sym with members := ms }

/-- The symbol table (src/src/symbol.rs, struct SymbolTable): an append-only
ordered list of symbols. -/
structure SymbolTable where
  table : List Symbol
deriving DecidableEq, Repr

/-- Constructor (src/src/symbol.rs, SymbolTable::new). -/
def SymbolTable.new : SymbolTable := ⟨[]⟩

/-- Fixed per-type widths (src/src/symbol.rs, SymbolTable::type_size).  Char
is recorded as 8, not 1: the source keeps the 1-byte width commented out
behind a ToDo note; every other type falls to the 0 catch-all. -/
def SymbolTable.type_size (_tbl : SymbolTable) (t : Ty) : Nat :=
  match t with
  | .Int => 8
  | .Char => 8
  | _ => 0

/-- Lookup keyed by scope and name, first match (src/src/symbol.rs,
SymbolTable::search). -/
def SymbolTable.search (tbl : SymbolTable) (scope : Scope) (var : String) : Option Symbol :=
  tbl.table.find? (fun s => decide (s.scope = scope) && decide (s.var = var))

/-- Modelled from the spec: the full byte footprint recorded as a symbol's
size at registration (spec section 4.2: pointer width for pointers, type
width for scalars, dimension-product times type width for arrays; spec
section 4.1: sizeof on a struct name yields the aggregate of its members).
The symbol.rs snapshot under src has no size field; src/src/ast.rs reads it. -/
def SymbolTable.spec_size (tbl : SymbolTable) (t : Ty) (strt : Structure)
    (members : List MemberSym) : Nat :=
  match strt with
  | .Pointer => 8
  | .Identifier => tbl.type_size t
  | .Array dims => dims.prod * tbl.type_size t
  | .Struct => members.foldl (fun acc m =>
      acc + (match m.strt with
             | .Pointer => 8
             | .Array dims => dims.prod * tbl.type_size m.t
             | _ => tbl.type_size m.t)) 0
  | .Unknown => 0

/-- Variable registration (src/src/symbol.rs, SymbolTable::register_variable):
position and offset are continued from the last already-registered symbol of
the same scope; an array predecessor advances by its element count and by
element count times its type width, any other predecessor by one and by its
type width.  The size field is filled per spec (SymbolTable.spec_size); the
snapshot under src has no such field. -/
def SymbolTable.register_variable (tbl : SymbolTable) (sym : Symbol) : SymbolTable :=
  let reg0 := { sym with size := tbl.spec_size sym.t sym.strt sym.members }
  match (tbl.table.filter (fun s => decide (s.scope = sym.scope))).getLast? with
  | none => ⟨tbl.table ++ [{ reg0 with pos := 1, offset := 0 }]⟩
  | some pre_sym =>
    match pre_sym.strt with
    | .Array v =>
      let count := v.foldl (fun acc item => acc * item) 1
      ⟨tbl.table ++ [{ reg0 with
          pos := pre_sym.pos + count
          offset := pre_sym.offset + tbl.type_size pre_sym.t * count }]⟩
    | _ =>
      ⟨tbl.table ++ [{ reg0 with
          pos := pre_sym.pos + 1
          offset := pre_sym.offset + tbl.type_size pre_sym.t }]⟩

/-- Symbol registration (src/src/symbol.rs, SymbolTable::register_sym): a
no-op when a symbol with the same scope and name exists; function-scope
symbols get position 1 and offset 0 directly, everything else goes through
register_variable. -/
def SymbolTable.register_sym (tbl : SymbolTable) (sym : Symbol) : SymbolTable :=
  match tbl.search sym.scope sym.var with
  | some _ => tbl
  | none =>
    match sym.scope with
    | .Func => ⟨tbl.table ++ [{ sym with
        pos := 1
        offset := 0
        size := tbl.spec_size sym.t sym.strt sym.members }]⟩
    | _ => tbl.register_variable sym

/-- Total count (src/src/symbol.rs, SymbolTable::count_all). -/
def SymbolTable.count_all (tbl : SymbolTable) : Nat := tbl.table.length

/-- Per-scope count (src/src/symbol.rs, SymbolTable::count). -/
def SymbolTable.count (tbl : SymbolTable) (scope : Scope) : Nat :=
  (tbl.table.filter (fun s => decide (s.scope = scope))).length

/-- Total byte size of a scope (src/src/symbol.rs, SymbolTable::size).  Note
that the array arm folds the per-dimension terms d0*w + d1*w + ..., that is
the dimension sum times the width, not the dimension product. -/
def SymbolTable.size (tbl : SymbolTable) (scope : Scope) : Nat :=
  (tbl.table.filter (fun s => decide (s.scope = scope))).foldl
    (fun acc sym =>
      match sym.strt with
      | .Pointer => acc + 8
      | .Identifier => acc + tbl.type_size sym.t
      | .Array items => acc + items.foldl (fun acc2 i => acc2 + i * tbl.type_size sym.t) 0
      | _ => acc)
    0

/-- Scope-aware lookup of the parser (src/src/ast.rs, AstGen::search_symbol).
The source recurses once with Scope::Global on a local miss; that single
recursive step is inlined here, since the Global arm is the recursion's base
case. -/
def search_symbol (tbl : SymbolTable) (scope : Scope) (var : String) : Option Symbol :=
  match scope with
  | .Global => tbl.search .Global var
  | _ =>
    match tbl.search scope var with
    | some s => some s
    | none => tbl.search .Global var

/-- Symbol lookup of the code generator (src/src/asm.rs, Asm::get_var_symbol);
the failed expect is modelled as none. -/
def get_var_symbol (tbl : SymbolTable) (cur_scope : Scope) (k : String) : Option Symbol :=
  match cur_scope with
  | .Global => tbl.search .Global k
  | _ =>
    match tbl.search cur_scope k with
    | some s => some s
    | none => tbl.search .Global k

/-- Element count of a symbol as the registration algorithm advances
positions: the dimension product for arrays, 1 otherwise (src/src/symbol.rs,
SymbolTable::register_variable). -/
def element_count (s : Symbol) : Nat :=
  match s.strt with
  | .Array v => v.prod
  | _ => 1

/-- Byte advance the registration algorithm applies after a symbol: its
element count times the table's width for its value type, for scalars and
pointers alike (src/src/symbol.rs, SymbolTable::register_variable). -/
def byte_size_code (tbl : SymbolTable) (s : Symbol) : Nat :=
  tbl.type_size s.t * element_count s

/-- Byte size as the claim words it: element count times the fixed width of
the value type, with pointers using the pointer width.  Stated from the
spec's words for comparison against byte_size_code. -/
def byte_size_spec (tbl : SymbolTable) (s : Symbol) : Nat :=
  element_count s * (match s.strt with
                     | .Pointer => 8
                     | _ => tbl.type_size s.t)

/-- Token kinds consumed by the parser (the lexer is outside src; the kinds
are the ones src/src/ast.rs matches on). -/
inductive Token where
  | Int
  | IntPointer
  | Char
  | CharPointer
  | Struct
  | Variable
  | Number
  | StringLiteral
  | LeftParen
  | RightParen
  | LeftBrace
  | RightBrace
  | LeftBracket
  | RightBracket
  | SemiColon
  | Colon
  | Comma
  | Question
  | Assign
  | PlusAssign
  | MinusAssign
  | MultipleAssign
  | DivisionAssign
  | RemainderAssign
  | Plus
  | Minus
  | Multi
  | Division
  | Remainder
  | Equal
  | NotEqual
  | LessThan
  | GreaterThan
  | LessThanEqual
  | GreaterThanEqual
  | LogicalAnd
  | LogicalOr
  | And
  | BitOr
  | BitXor
  | BitReverse
  | Not
  | LeftShift
  | RightShift
  | If
  | Else
  | While
  | Do
  | For
  | Continue
  | Break
  | Return
  | SizeOf
  | Inc
  | Dec
  | End
deriving DecidableEq, Repr

/-- A token with its literal text (the source's TokenInfo also carries a
source-position triple used only in panic messages, omitted here). -/
structure TokenInfo where
  ty : Token
  val : String
deriving DecidableEq, Repr

/-- Abstract syntax tree (src/src/ast.rs, enum AstType). -/
inductive AstType where
  | Global (xs : List AstType)
  | FuncDef (t : Ty) (s : Structure) (name : String) (args : AstType) (body : AstType)
  | Statement (xs : List AstType)
  | While (cond : AstType) (body : AstType)
  | Do (body : AstType) (cond : AstType)
  | If (cond : AstType) (thenBlk : AstType) (elseBlk : Option AstType)
  | For (ini : Option AstType) (cond : Option AstType) (upd : Option AstType) (body : AstType)
  | Continue
  | Break
  | Return (e : AstType)
  | Condition (c : AstType) (t : AstType) (e : AstType)
  | LogicalAnd (l : AstType) (r : AstType)
  | LogicalOr (l : AstType) (r : AstType)
  | BitAnd (l : AstType) (r : AstType)
  | BitOr (l : AstType) (r : AstType)
  | BitXor (l : AstType) (r : AstType)
  | Equal (l : AstType) (r : AstType)
  | NotEqual (l : AstType) (r : AstType)
  | LessThan (l : AstType) (r : AstType)
  | GreaterThan (l : AstType) (r : AstType)
  | LessThanEqual (l : AstType) (r : AstType)
  | GreaterThanEqual (l : AstType) (r : AstType)
  | Plus (l : AstType) (r : AstType)
  | Minus (l : AstType) (r : AstType)
  | LeftShift (l : AstType) (r : AstType)
  | RightShift (l : AstType) (r : AstType)
  | Multiple (l : AstType) (r : AstType)
  | Division (l : AstType) (r : AstType)
  | Remainder (l : AstType) (r : AstType)
  | UnPlus (e : AstType)
  | UnMinus (e : AstType)
  | Not (e : AstType)
  | BitReverse (e : AstType)
  | Assign (l : AstType) (r : AstType)
  | Factor (n : Int)
  | Variable (t : Ty) (s : Structure) (name : String)
  | FuncCall (f : AstType) (args : AstType)
  | Argment (xs : List AstType)
  | Address (e : AstType)
  | Indirect (e : AstType)
  | PreInc (e : AstType)
  | PreDec (e : AstType)
  | PostInc (e : AstType)
  | PostDec (e : AstType)
  | StringLiteral (s : String) (idx : Nat)
  | PlusAssign (l : AstType) (r : AstType)
  | MinusAssign (l : AstType) (r : AstType)
  | MultipleAssign (l : AstType) (r : AstType)
  | DivisionAssign (l : AstType) (r : AstType)
  | RemainderAssign (l : AstType) (r : AstType)
  | SizeOf (n : Nat)
  | Struct (v : AstType) (members : List AstType)
deriving Repr

/-- Expression test (src/src/ast.rs, AstType::is_expr): everything except the
listed control-flow statements counts as an expression. -/
def AstType.is_expr (a : AstType) : Bool :=
  match a with
  | .If _ _ _ | .For _ _ _ _ | .Do _ _ | .Continue | .Break | .Return _ | .While _ _ => false
  | _ => true

/-- Parser state (src/src/ast.rs, struct AstGen): the token slice, the cursor,
the string-literal counter, the current scope and the symbol table.  The f_sym
map of the source is declared but never read or written, and is omitted. -/
structure PSt where
  tokens : List TokenInfo
  pos : Nat
  str_count : Nat
  cur_scope : Scope
  sym_table : SymbolTable
deriving DecidableEq, Repr

/-- Token peek (src/src/ast.rs, AstGen::next); an exhausted stream panics in
the source and is none here. -/
def nextTok (st : PSt) : Option TokenInfo := st.tokens.get? st.pos

/-- Token read and cursor advance (src/src/ast.rs, AstGen::next_consume). -/
def next_consume (st : PSt) : Option (TokenInfo × PSt) :=
  match st.tokens.get? st.pos with
  | some t => some (t, { st with pos := st.pos + 1 })
  | none => none

/-- Cursor advance (src/src/ast.rs, AstGen::consume). -/
def consume (st : PSt) : PSt := { st with pos := st.pos + 1 }

/-- Cursor rewind (src/src/ast.rs, AstGen::back); Nat subtraction, the source
never rewinds past the start. -/
def back (i : Nat) (st : PSt) : PSt := { st with pos := st.pos - i }

/-- Expected-token consumption (src/src/ast.rs, AstGen::must_next); the panic
on a mismatch is none. -/
def must_next (t : Token) (st : PSt) : Option PSt :=
  match next_consume st with
  | some (tok, st') => if tok.ty = t then some st' else none
  | none => none

/-- Scope switch (src/src/ast.rs, AstGen::switch_scope). -/
def switch_scope (scope : Scope) (st : PSt) : PSt := { st with cur_scope := scope }

/-- Type-keyword peek (src/src/ast.rs, AstGen::is_type_token). -/
def is_type_token (st : PSt) : Option Bool :=
  (nextTok st).map (fun tok =>
    match tok.ty with
    | .Int | .IntPointer | .Char | .CharPointer => true
    | _ => false)

/-- Type and structure kind from the leading token (src/src/ast.rs,
AstGen::generate_type).  The struct arm peeks the definition name without
consuming it. -/
def generate_type (st : PSt) : Option ((Ty × Structure) × PSt) :=
  match next_consume st with
  | none => none
  | some (token, st1) =>
    match token.ty with
    | .Int => some ((.Int, .Identifier), st1)
    | .IntPointer => some ((.Int, .Pointer), st1)
    | .Char => some ((.Char, .Identifier), st1)
    | .CharPointer => some ((.Char, .Pointer), st1)
    | .Struct => (nextTok st1).map (fun name => ((.Struct name.val, .Struct), st1))
    | _ => some ((.Unknown "unknown type", .Unknown), st1)

/-- String-literal node creation (src/src/ast.rs, AstGen::string_literal). -/
def string_literal (token : TokenInfo) (st : PSt) : AstType × PSt :=
  (.StringLiteral token.val st.str_count, { st with str_count := st.str_count + 1 })

/-- Number parsing (src/src/ast.rs, AstGen::number); a failed i64 parse panics
in the source and is none here. -/
def number (token : TokenInfo) (st : PSt) : Option (AstType × PSt) :=
  (token.val.toInt?).map (fun n => (.Factor n, st))

/-- Function-name node (src/src/ast.rs, AstGen::variable_func): consumes the
name without touching the symbol table. -/
def variable_func (t : Ty) (s : Structure) (st : PSt) : Option (AstType × PSt) :=
  match next_consume st with
  | some (token, st1) =>
    match token.ty with
    | .Variable => some (.Variable t s token.val, st1)
    | _ => none
  | none => none

/-- Declared-dimension list of an array (src/src/ast.rs, AstGen::array_size):
repeatedly read bracketed numbers; a failed usize parse panics in the source
and is none here. -/
def array_size (fuel : Nat) (size : List Nat) (st : PSt) : Option (List Nat × PSt) :=
  match fuel with
  | 0 => none
  | f + 1 => do
    let tok ← nextTok st
    match tok.ty with
    | .LeftBracket => do
      let st1 := consume st
      let numTok ← nextTok st1
      let s ← numTok.val.toNat?
      let st2 ← must_next .Number st1
      let st3 ← must_next .RightBracket st2
      array_size f (size ++ [s]) st3
    | _ => some (size, st)

/-- Struct-variable declaration (src/src/ast.rs, AstGen::struct_variable):
clones the member list of the struct definition symbol onto a new symbol named
after the variable, when the definition is registered. -/
def struct_variable (def_name name : TokenInfo) (st : PSt) : AstType × PSt :=
  let st' :=
    match search_symbol st.sym_table st.cur_scope def_name.val with
    | some s =>
      let sym := (Symbol.new st.cur_scope name.val (.Struct def_name.val) .Struct).regist_mem
        s.members
      { st with sym_table := st.sym_table.register_sym sym }
    | none => st
  (.Variable (.Struct def_name.val) .Struct name.val, st')

/-- Continue statement node (src/src/ast.rs, AstGen::statement_continue). -/
def statement_continue (st : PSt) : AstType × PSt := (.Continue, st)

/-- Break statement node (src/src/ast.rs, AstGen::statement_break). -/
def statement_break (st : PSt) : AstType × PSt := (.Break, st)

set_option maxHeartbeats 3200000 in
mutual

/-- Top-level parse (src/src/ast.rs, AstGen::parse): global declarations then
function definitions until the End token.  The while loop is parse_loop. -/
def parse (fuel : Nat) (st : PSt) : Option (List AstType × PSt) :=
  match fuel with
  | 0 => none
  | f + 1 => do
    let (g, st1) ← global_var f [] st
    let s := if g.isEmpty then [] else [AstType.Global g]
    parse_loop f s st1

/-- Function-definition loop of parse (src/src/ast.rs, AstGen::parse). -/
def parse_loop (fuel : Nat) (s : List AstType) (st : PSt) : Option (List AstType × PSt) :=
  match fuel with
  | 0 => none
  | f + 1 => do
    let tok ← nextTok st
    if tok.ty = .End then some (s, st)
    else do
      let (e, st1) ← func_def f st
      parse_loop f (s ++ [e]) st1

/-- Global declarations (src/src/ast.rs, AstGen::global_var): two-token
lookahead distinguishes a global variable, a struct definition and the start
of a function definition. -/
def global_var (fuel : Nat) (acc : List AstType) (st : PSt) : Option (List AstType × PSt) :=
  match fuel with
  | 0 => none
  | f + 1 => do
    let st0 := switch_scope .Global st
    let ((_t, s), st1) ← generate_type st0
    let (token, st2) ← next_consume st1
    let paren ← nextTok st2
    let st3 := back 2 st2
    match token.ty with
    | .Variable =>
      if s ≠ .Struct ∧ paren.ty ≠ .LeftParen then do
        let (var, st4) ← assign f st3
        let st5 ← must_next .SemiColon st4
        global_var f (acc ++ [var]) st5
      else if s = .Struct then do
        let st4 := consume st3
        let (v, st5) ← struct_def_or_var f st4
        global_var f (acc ++ [v]) st5
      else some (acc, st3)
    | _ => some (acc, st3)

/-- Function definition (src/src/ast.rs, AstGen::func_def): an already
registered function name is a fatal error (none); otherwise the name is
registered in the Func scope and the arguments and body are parsed under the
function's local scope. -/
def func_def (fuel : Nat) (st : PSt) : Option (AstType × PSt) :=
  match fuel with
  | 0 => none
  | f + 1 => do
    let ((t, s), st1) ← generate_type st
    let (token, st2) ← next_consume st1
    match token.ty with
    | .Variable =>
      let st3 := switch_scope (.Local token.val) st2
      match search_symbol st3.sym_table .Func token.val with
      | some _ => none
      | none =>
        let st4 := { st3 with
          sym_table := st3.sym_table.register_sym (Symbol.new .Func token.val t s) }
        do
        let (args, st5) ← func_args f st4
        let (body, st6) ← statement f st5
        some (.FuncDef t s token.val args body, st6)
    | _ => none

/-- Parameter list (src/src/ast.rs, AstGen::func_args). -/
def func_args (fuel : Nat) (st : PSt) : Option (AstType × PSt) :=
  match fuel with
  | 0 => none
  | f + 1 => do
    let (token, st1) ← next_consume st
    match token.ty with
    | .LeftParen => do
      let (args, st2) ← recur_func_args f [] st1
      let st3 ← must_next .RightParen st2
      some (.Argment args, st3)
    | _ => none

/-- Parameter recursion (src/src/ast.rs, AstGen::recur_func_args). -/
def recur_func_args (fuel : Nat) (a : List AstType) (st : PSt) :
    Option (List AstType × PSt) :=
  match fuel with
  | 0 => none
  | f + 1 => do
    let b ← is_type_token st
    if !b then some (a, st)
    else do
      let (arg, st1) ← assign f st
      let args := a ++ [arg]
      let tok ← nextTok st1
      match tok.ty with
      | .Comma => recur_func_args f args (consume st1)
      | _ => some (args, st1)

/-- Statement block (src/src/ast.rs, AstGen::statement). -/
def statement (fuel : Nat) (st : PSt) : Option (AstType × PSt) :=
  match fuel with
  | 0 => none
  | f + 1 => do
    let (xs, st1) ← sub_statement f [] st
    some (.Statement xs, st1)

/-- Statement-list recursion (src/src/ast.rs, AstGen::sub_statement). -/
def sub_statement (fuel : Nat) (expr0 : List AstType) (st : PSt) :
    Option (List AstType × PSt) :=
  match fuel with
  | 0 => none
  | f + 1 => do
    let (token, st1) ← next_consume st
    match token.ty with
    | .If => do
      let (x, st2) ← statement_if f st1
      sub_statement f (expr0 ++ [x]) st2
    | .While => do
      let (x, st2) ← statement_while f st1
      sub_statement f (expr0 ++ [x]) st2
    | .For => do
      let (x, st2) ← statement_for f st1
      sub_statement f (expr0 ++ [x]) st2
    | .Do => do
      let (x, st2) ← statement_do f st1
      sub_statement f (expr0 ++ [x]) st2
    | .Continue =>
      let (x, st2) := statement_continue st1
      sub_statement f (expr0 ++ [x]) st2
    | .Break =>
      let (x, st2) := statement_break st1
      sub_statement f (expr0 ++ [x]) st2
    | .LeftBrace => sub_statement f expr0 st1
    | .SemiColon => sub_statement f expr0 st1
    | .RightBrace => some (expr0, st1)
    | .Comma => do
      let (var, st2) ← continue_variable_define f expr0 st1
      sub_statement f (expr0 ++ [var]) st2
    | _ => do
      let st2 := back 1 st1
      let (e, st3) ← expression f st2
      sub_statement f (expr0 ++ [e]) st3

/-- Comma-separated multi-declaration continuation (src/src/ast.rs,
AstGen::continue_variable_define): reuses the type and structure of the
preceding declaration in the statement list. -/
def continue_variable_define (fuel : Nat) (stmt : List AstType) (st : PSt) :
    Option (AstType × PSt) :=
  match fuel with
  | 0 => none
  | f + 1 =>
    match stmt.getLast? with
    | some (.Variable t s _n) =>
      match t, s with
      | .Int, .Identifier => factor_int f st
      | .Char, .Identifier => factor_char f st
      | .Int, .Pointer => variableP f .Int .Pointer st
      | .Char, .Pointer => variableP f .Char .Pointer st
      | _, _ => none
    | some _ => none
    | none => none

/-- If statement (src/src/ast.rs, AstGen::statement_if): a one-line body is
wrapped in a Statement node. -/
def statement_if (fuel : Nat) (st : PSt) : Option (AstType × PSt) :=
  match fuel with
  | 0 => none
  | f + 1 => do
    let st1 ← must_next .LeftParen st
    let (cond, st2) ← assign f st1
    let st3 ← must_next .RightParen st2
    let tok ← nextTok st3
    let (stmtB, st4) ←
      (match tok.ty with
       | .LeftBrace => statement f st3
       | _ => do
         let (e, sa) ← expression f st3
         let sb ← must_next .SemiColon sa
         some (AstType.Statement [e], sb))
    let tok2 ← nextTok st4
    match tok2.ty with
    | .Else => do
      let st5 := consume st4
      let tok3 ← nextTok st5
      let (elseStmt, st6) ←
        (match tok3.ty with
         | .LeftBrace => statement f st5
         | _ => do
           let (e, sa) ← expression f st5
           let sb ← must_next .SemiColon sa
           some (AstType.Statement [e], sb))
      some (.If cond stmtB (some elseStmt), st6)
    | _ => some (.If cond stmtB none, st4)

/-- While statement (src/src/ast.rs, AstGen::statement_while). -/
def statement_while (fuel : Nat) (st : PSt) : Option (AstType × PSt) :=
  match fuel with
  | 0 => none
  | f + 1 => do
    let st1 ← must_next .LeftParen st
    let (cond, st2) ← assign f st1
    let st3 ← must_next .RightParen st2
    let (body, st4) ← statement f st3
    some (.While cond body, st4)

/-- Do-while statement (src/src/ast.rs, AstGen::statement_do). -/
def statement_do (fuel : Nat) (st : PSt) : Option (AstType × PSt) :=
  match fuel with
  | 0 => none
  | f + 1 => do
    let (stmtB, st1) ← statement f st
    let st2 ← must_next .While st1
    let st3 ← must_next .LeftParen st2
    let (cond, st4) ← assign f st3
    let st5 ← must_next .RightParen st4
    some (.Do stmtB cond, st5)

/-- For statement (src/src/ast.rs, AstGen::statement_for): the three clauses
are independently optional. -/
def statement_for (fuel : Nat) (st : PSt) : Option (AstType × PSt) :=
  match fuel with
  | 0 => none
  | f + 1 => do
    let st1 ← must_next .LeftParen st
    let tok ← nextTok st1
    let (ini, st2) ←
      (match tok.ty with
       | .SemiColon => some ((none : Option AstType), st1)
       | _ => (assign f st1).map (fun p => (some p.1, p.2)))
    let st3 ← must_next .SemiColon st2
    let tok2 ← nextTok st3
    let (cond, st4) ←
      (match tok2.ty with
       | .SemiColon => some ((none : Option AstType), st3)
       | _ => (assign f st3).map (fun p => (some p.1, p.2)))
    let st5 ← must_next .SemiColon st4
    let tok3 ← nextTok st5
    let (upd, st6) ←
      (match tok3.ty with
       | .RightParen => some ((none : Option AstType), st5)
       | _ => (assign f st5).map (fun p => (some p.1, p.2)))
    let st7 ← must_next .RightParen st6
    let (body, st8) ← statement f st7
    some (.For ini cond upd body, st8)

/-- Return statement (src/src/ast.rs, AstGen::statement_return). -/
def statement_return (fuel : Nat) (st : PSt) : Option (AstType × PSt) :=
  match fuel with
  | 0 => none
  | f + 1 => do
    let (e, st1) ← assign f st
    some (.Return e, st1)

/-- Expression or return (src/src/ast.rs, AstGen::expression). -/
def expression (fuel : Nat) (st : PSt) : Option (AstType × PSt) :=
  match fuel with
  | 0 => none
  | f + 1 => do
    let tok ← nextTok st
    match tok.ty with
    | .Return => statement_return f (consume st)
    | _ => assign f st

/-- Assignment level (src/src/ast.rs, AstGen::assign): one-token lookahead for
the six assignment operators, otherwise the conditional level. -/
def assign (fuel : Nat) (st : PSt) : Option (AstType × PSt) :=
  match fuel with
  | 0 => none
  | f + 1 => do
    let (token, st1) ← next_consume st
    let next_token ← nextTok st1
    let st2 := back 1 st1
    match token.ty, next_token.ty with
    | .Variable, .Assign => do
      let (var, st3) ← factor f st2
      let st4 := consume st3
      let (rhs, st5) ← condition f st4
      some (.Assign var rhs, st5)
    | .Variable, .PlusAssign => do
      let (var, st3) ← factor f st2
      let st4 := consume st3
      let (rhs, st5) ← condition f st4
      some (.PlusAssign var rhs, st5)
    | .Variable, .MinusAssign => do
      let (var, st3) ← factor f st2
      let st4 := consume st3
      let (rhs, st5) ← condition f st4
      some (.MinusAssign var rhs, st5)
    | .Variable, .MultipleAssign => do
      let (var, st3) ← factor f st2
      let st4 := consume st3
      let (rhs, st5) ← condition f st4
      some (.MultipleAssign var rhs, st5)
    | .Variable, .DivisionAssign => do
      let (var, st3) ← factor f st2
      let st4 := consume st3
      let (rhs, st5) ← condition f st4
      some (.DivisionAssign var rhs, st5)
    | .Variable, .RemainderAssign => do
      let (var, st3) ← factor f st2
      let st4 := consume st3
      let (rhs, st5) ← condition f st4
      some (.RemainderAssign var rhs, st5)
    | _, _ => condition f st2

/-- Call parsing (src/src/ast.rs, AstGen::call_func). -/
def call_func (fuel : Nat) (acc : AstType) (st : PSt) : Option (AstType × PSt) :=
  match fuel with
  | 0 => none
  | f + 1 => do
    let (token, st1) ← next_consume st
    match token.ty with
    | .LeftParen => do
      let (args, st2) ← argment f (.Argment []) st1
      let st3 ← must_next .RightParen st2
      some (.FuncCall acc args, st3)
    | _ => none

/-- Argument recursion (src/src/ast.rs, AstGen::sub_argment). -/
def sub_argment (fuel : Nat) (acc : AstType) (st : PSt) : Option (AstType × PSt) :=
  match fuel with
  | 0 => none
  | f + 1 =>
    match acc with
    | .Argment a => do
      let (arg, st1) ← assign f st
      let args := a ++ [arg]
      let tok ← nextTok st1
      if tok.ty = .Comma then do
        let (_, st2) ← next_consume st1
        argment f (.Argment args) st2
      else some (.Argment args, st1)
    | _ => none

/-- Argument list (src/src/ast.rs, AstGen::argment). -/
def argment (fuel : Nat) (acc : AstType) (st : PSt) : Option (AstType × PSt) :=
  match fuel with
  | 0 => none
  | f + 1 => do
    let tok ← nextTok st
    match tok.ty with
    | .RightParen => some (acc, st)
    | _ => sub_argment f acc st

/-- Conditional level (src/src/ast.rs, AstGen::condition). -/
def condition (fuel : Nat) (st : PSt) : Option (AstType × PSt) :=
  match fuel with
  | 0 => none
  | f + 1 => do
    let (left, st1) ← logical f st
    sub_condition f left st1

/-- Ternary recursion (src/src/ast.rs, AstGen::sub_condition). -/
def sub_condition (fuel : Nat) (acc : AstType) (st : PSt) : Option (AstType × PSt) :=
  match fuel with
  | 0 => none
  | f + 1 => do
    let tok ← nextTok st
    match tok.ty with
    | .Question => do
      let st1 := consume st
      let (middle, st2) ← logical f st1
      let st3 ← must_next .Colon st2
      let (right, st4) ← logical f st3
      sub_condition f (.Condition acc middle right) st4
    | _ => some (acc, st)

/-- Logical level (src/src/ast.rs, AstGen::logical). -/
def logical (fuel : Nat) (st : PSt) : Option (AstType × PSt) :=
  match fuel with
  | 0 => none
  | f + 1 => do
    let (left, st1) ← bit_operator f st
    sub_logical f left st1

/-- Logical recursion (src/src/ast.rs, AstGen::sub_logical); the source's
create closure also folds a bare Assign token into an Assign node here. -/
def sub_logical (fuel : Nat) (acc : AstType) (st : PSt) : Option (AstType × PSt) :=
  match fuel with
  | 0 => none
  | f + 1 => do
    let tok ← nextTok st
    match tok.ty with
    | .LogicalAnd | .LogicalOr | .Assign => do
      let st1 := consume st
      let (right, st2) ← bit_operator f st1
      let node :=
        match tok.ty with
        | .LogicalAnd => AstType.LogicalAnd acc right
        | .Assign => AstType.Assign acc right
        | _ => AstType.LogicalOr acc right
      sub_logical f node st2
    | _ => some (acc, st)

/-- Bitwise level (src/src/ast.rs, AstGen::bit_operator). -/
def bit_operator (fuel : Nat) (st : PSt) : Option (AstType × PSt) :=
  match fuel with
  | 0 => none
  | f + 1 => do
    let (left, st1) ← relation f st
    sub_bit_operator f left st1

/-- Bitwise recursion (src/src/ast.rs, AstGen::sub_bit_operator). -/
def sub_bit_operator (fuel : Nat) (acc : AstType) (st : PSt) : Option (AstType × PSt) :=
  match fuel with
  | 0 => none
  | f + 1 => do
    let tok ← nextTok st
    match tok.ty with
    | .BitOr | .And | .BitXor => do
      let st1 := consume st
      let (right, st2) ← relation f st1
      let node :=
        match tok.ty with
        | .BitOr => AstType.BitOr acc right
        | .And => AstType.BitAnd acc right
        | _ => AstType.BitXor acc right
      sub_bit_operator f node st2
    | _ => some (acc, st)

/-- Relational level (src/src/ast.rs, AstGen::relation). -/
def relation (fuel : Nat) (st : PSt) : Option (AstType × PSt) :=
  match fuel with
  | 0 => none
  | f + 1 => do
    let (left, st1) ← shift f st
    sub_relation f left st1

/-- Relational recursion (src/src/ast.rs, AstGen::sub_relation). -/
def sub_relation (fuel : Nat) (acc : AstType) (st : PSt) : Option (AstType × PSt) :=
  match fuel with
  | 0 => none
  | f + 1 => do
    let tok ← nextTok st
    match tok.ty with
    | .Equal | .NotEqual | .LessThan | .LessThanEqual | .GreaterThan | .GreaterThanEqual => do
      let st1 := consume st
      let (right, st2) ← shift f st1
      let node :=
        match tok.ty with
        | .Equal => AstType.Equal acc right
        | .NotEqual => AstType.NotEqual acc right
        | .LessThan => AstType.LessThan acc right
        | .GreaterThan => AstType.GreaterThan acc right
        | .LessThanEqual => AstType.LessThanEqual acc right
        | _ => AstType.GreaterThanEqual acc right
      sub_relation f node st2
    | _ => some (acc, st)

/-- Shift level (src/src/ast.rs, AstGen::shift). -/
def shift (fuel : Nat) (st : PSt) : Option (AstType × PSt) :=
  match fuel with
  | 0 => none
  | f + 1 => do
    let (left, st1) ← expr f st
    sub_shift f left st1

/-- Shift recursion (src/src/ast.rs, AstGen::sub_shift). -/
def sub_shift (fuel : Nat) (acc : AstType) (st : PSt) : Option (AstType × PSt) :=
  match fuel with
  | 0 => none
  | f + 1 => do
    let tok ← nextTok st
    match tok.ty with
    | .LeftShift | .RightShift => do
      let st1 := consume st
      let (right, st2) ← expr f st1
      let node :=
        match tok.ty with
        | .LeftShift => AstType.LeftShift acc right
        | _ => AstType.RightShift acc right
      sub_shift f node st2
    | _ => some (acc, st)

/-- Additive level (src/src/ast.rs, AstGen::expr). -/
def expr (fuel : Nat) (st : PSt) : Option (AstType × PSt) :=
  match fuel with
  | 0 => none
  | f + 1 => do
    let (left, st1) ← term f st
    expr_add_sub f left st1

/-- Additive recursion (src/src/ast.rs, AstGen::expr_add_sub). -/
def expr_add_sub (fuel : Nat) (acc : AstType) (st : PSt) : Option (AstType × PSt) :=
  match fuel with
  | 0 => none
  | f + 1 => do
    let tok ← nextTok st
    match tok.ty with
    | .Plus | .Minus => do
      let st1 := consume st
      let (right, st2) ← term f st1
      let node :=
        match tok.ty with
        | .Plus => AstType.Plus acc right
        | _ => AstType.Minus acc right
      expr_add_sub f node st2
    | _ => some (acc, st)

/-- Multiplicative level (src/src/ast.rs, AstGen::term). -/
def term (fuel : Nat) (st : PSt) : Option (AstType × PSt) :=
  match fuel with
  | 0 => none
  | f + 1 => do
    let (left, st1) ← factor f st
    term_multi_div f left st1

/-- Multiplicative recursion (src/src/ast.rs, AstGen::term_multi_div). -/
def term_multi_div (fuel : Nat) (acc : AstType) (st : PSt) : Option (AstType × PSt) :=
  match fuel with
  | 0 => none
  | f + 1 => do
    let tok ← nextTok st
    match tok.ty with
    | .Multi | .Division | .Remainder => do
      let st1 := consume st
      let (right, st2) ← factor f st1
      let node :=
        match tok.ty with
        | .Multi => AstType.Multiple acc right
        | .Division => AstType.Division acc right
        | _ => AstType.Remainder acc right
      term_multi_div f node st2
    | _ => some (acc, st)

/-- Factor level (src/src/ast.rs, AstGen::factor). -/
def factor (fuel : Nat) (st : PSt) : Option (AstType × PSt) :=
  match fuel with
  | 0 => none
  | f + 1 => do
    let (token, st1) ← next_consume st
    match token.ty with
    | .Inc => (factor f st1).map (fun p => (.PreInc p.1, p.2))
    | .Dec => (factor f st1).map (fun p => (.PreDec p.1, p.2))
    | .Plus => (factor f st1).map (fun p => (.UnPlus p.1, p.2))
    | .Minus => (factor f st1).map (fun p => (.UnMinus p.1, p.2))
    | .Not => (factor f st1).map (fun p => (.Not p.1, p.2))
    | .BitReverse => (factor f st1).map (fun p => (.BitReverse p.1, p.2))
    | .SizeOf => factor_sizeof f st1
    | .IntPointer => variableP f .Int .Pointer st1
    | .CharPointer => variableP f .Char .Pointer st1
    | .And => (factor f st1).map (fun p => (.Address p.1, p.2))
    | .Multi => (factor f st1).map (fun p => (.Indirect p.1, p.2))
    | .Number => number token st1
    | .Int => factor_int f st1
    | .Char => factor_char f st1
    | .StringLiteral => some (string_literal token st1)
    | .Struct => struct_def_or_var f st1
    | .Variable => factor_variable f token (back 1 st1)
    | .LeftParen => do
      let (tree, st2) ← assign f st1
      let st3 ← must_next .RightParen st2
      some (tree, st3)
    | _ => none

/-- Struct definition or declaration (src/src/ast.rs,
AstGen::struct_def_or_var). -/
def struct_def_or_var (fuel : Nat) (st : PSt) : Option (AstType × PSt) :=
  match fuel with
  | 0 => none
  | f + 1 => do
    let (def_name, st1) ← next_consume st
    let (token, st2) ← next_consume st1
    match token.ty with
    | .LeftBrace => struct_def f def_name st2
    | .Variable => some (struct_variable def_name token st2)
    | _ => none

/-- Struct definition (src/src/ast.rs, AstGen::struct_def): member loop, then
registration of the definition symbol carrying the member list (when not
already registered). -/
def struct_def (fuel : Nat) (def_name : TokenInfo) (st : PSt) : Option (AstType × PSt) :=
  match fuel with
  | 0 => none
  | f + 1 => do
    let ((members, syms), st1) ← struct_def_loop f [] [] st
    let st2 :=
      if (search_symbol st1.sym_table st1.cur_scope def_name.val).isNone then
        let sym := (Symbol.new st1.cur_scope def_name.val (.Struct def_name.val)
          .Struct).regist_mem syms
        { st1 with sym_table := st1.sym_table.register_sym sym }
      else st1
    some (.Struct (.Variable (.Struct def_name.val) .Struct def_name.val) members, st2)

/-- Member loop of struct_def (src/src/ast.rs, AstGen::struct_def's loop). -/
def struct_def_loop (fuel : Nat) (members : List AstType) (syms : List MemberSym)
    (st : PSt) : Option ((List AstType × List MemberSym) × PSt) :=
  match fuel with
  | 0 => none
  | f + 1 => do
    let rb ← nextTok st
    match rb.ty with
    | .RightBrace => do
      let st1 := consume st
      let st2 ← must_next .SemiColon st1
      some ((members, syms), st2)
    | _ => do
      let (member, st1) ← assign f st
      match member with
      | .Variable t strt mem_name => do
        let mem_sym : MemberSym := ⟨st1.cur_scope, mem_name, t, strt⟩
        let st2 ← must_next .SemiColon st1
        struct_def_loop f (members ++ [member]) (syms ++ [mem_sym]) st2
      | _ => none

/-- Identifier factor (src/src/ast.rs, AstGen::factor_variable): a known
variable (with optional postfix operator), else a call through the function
namespace, else fatal. -/
def factor_variable (fuel : Nat) (token : TokenInfo) (st : PSt) : Option (AstType × PSt) :=
  match fuel with
  | 0 => none
  | f + 1 =>
    match search_symbol st.sym_table st.cur_scope token.val with
    | some sym => do
      let (var, st1) ← variableP f sym.t sym.strt st
      let tok ← nextTok st1
      match tok.ty with
      | .Inc => some (.PostInc var, consume st1)
      | .Dec => some (.PostDec var, consume st1)
      | _ => some (var, st1)
    | none =>
      match search_symbol st.sym_table .Func token.val with
      | some s => do
        let (f_sym, st1) ← variable_func s.t s.strt st
        call_func f f_sym st1
      | none => none

/-- Int declaration factor (src/src/ast.rs, AstGen::factor_int): one-token
lookahead for an array declarator. -/
def factor_int (fuel : Nat) (st : PSt) : Option (AstType × PSt) :=
  match fuel with
  | 0 => none
  | f + 1 => do
    let (_, st1) ← next_consume st
    let tok ← nextTok st1
    let st2 := back 1 st1
    match tok.ty with
    | .LeftBracket => variable_array f .Int st2
    | _ => variableP f .Int .Identifier st2

/-- Char declaration factor (src/src/ast.rs, AstGen::factor_char). -/
def factor_char (fuel : Nat) (st : PSt) : Option (AstType × PSt) :=
  match fuel with
  | 0 => none
  | f + 1 => do
    let (_, st1) ← next_consume st
    let tok ← nextTok st1
    let st2 := back 1 st1
    match tok.ty with
    | .LeftBracket => variable_array f .Char st2
    | _ => variableP f .Char .Identifier st2

/-- Index-expression desugaring (src/src/ast.rs, AstGen::array_index): each
further bracket multiplies the current index by the second entry of the
remaining dimension list and adds the recursion on the dimension tail. -/
def array_index (fuel : Nat) (s : Structure) (st : PSt) : Option (AstType × PSt) :=
  match fuel with
  | 0 => none
  | f + 1 => do
    let st1 := consume st
    let (index, st2) ← expression f st1
    let st3 ← must_next .RightBracket st2
    let tok ← nextTok st3
    match tok.ty with
    | .LeftBracket =>
      match s with
      | .Array v => do
        let count ← v.get? 1
        let tails ← (match v with | [] => none | _ :: t => some t)
        let offset := AstType.Multiple index (.Factor (count : Int))
        let (rest, st4) ← array_index f (.Array tails) st3
        some (.Plus offset rest, st4)
      | _ => none
    | _ => some (index, st3)

/-- Variable parsing (src/src/ast.rs, AstGen::variable; renamed variableP as
Lean reserves the word variable): a bracket after the name desugars to an
Indirect around the variable plus the index expression; otherwise the symbol
is registered when absent. -/
def variableP (fuel : Nat) (t : Ty) (s : Structure) (st : PSt) : Option (AstType × PSt) :=
  match fuel with
  | 0 => none
  | f + 1 => do
    let (token, st1) ← next_consume st
    let next0 ← nextTok st1
    match token.ty with
    | .Variable =>
      if next0.ty = .LeftBracket then do
        let (index, st2) ← array_index f s st1
        some (.Indirect (.Plus (.Variable t s token.val) index), st2)
      else
        let st2 :=
          if (search_symbol st1.sym_table st1.cur_scope token.val).isNone then
            { st1 with
              sym_table := st1.sym_table.register_sym (Symbol.new st1.cur_scope token.val t s) }
          else st1
        some (.Variable t s token.val, st2)
    | _ => none

/-- Array declaration (src/src/ast.rs, AstGen::variable_array). -/
def variable_array (fuel : Nat) (t : Ty) (st : PSt) : Option (AstType × PSt) :=
  match fuel with
  | 0 => none
  | f + 1 => do
    let (token, st1) ← next_consume st
    match token.ty with
    | .Variable => do
      let (sizes, st2) ← array_size f [] st1
      let s := Structure.Array sizes
      let st3 :=
        if (search_symbol st2.sym_table st2.cur_scope token.val).isNone then
          { st2 with
            sym_table := st2.sym_table.register_sym (Symbol.new st2.cur_scope token.val t s) }
        else st2
      some (.Variable t s token.val, st3)
    | _ => none

/-- Sizeof operator (src/src/ast.rs, AstGen::factor_sizeof): int yields the
literal 4, char the literal 1, pointer types 8, a struct name or a bare
identifier the size recorded on its symbol, and a numeric literal 8. -/
def factor_sizeof (fuel : Nat) (st : PSt) : Option (AstType × PSt) :=
  match fuel with
  | 0 => none
  | f + 1 => do
    let st1 ← must_next .LeftParen st
    let token ← nextTok st1
    let (ast, st2) ←
      (match token.ty with
       | .Int => some (AstType.SizeOf 4, consume st1)
       | .Char => some (AstType.SizeOf 1, consume st1)
       | .IntPointer | .CharPointer => some (AstType.SizeOf 8, consume st1)
       | .Struct => do
         let sa := consume st1
         let (name, sb) ← next_consume sa
         let sym ← search_symbol sb.sym_table sb.cur_scope name.val
         some (AstType.SizeOf sym.size, sb)
       | _ => do
         let (fac, sa) ← factor f st1
         match fac with
         | .Variable _ _ _ => do
           let sym ← search_symbol sa.sym_table sa.cur_scope token.val
           some (AstType.SizeOf sym.size, sa)
         | .Factor _ => some (AstType.SizeOf 8, sa)
         | _ => none)
    let st3 ← must_next .RightParen st2
    some (ast, st3)

end

set_option maxHeartbeats 3200000 in
/-- Abstract instructions: one constructor per instruction-emission call of
src/src/asm.rs (the backend trait methods of the Generator abstraction, plus
the raw directive lines asm.rs formats itself).  Registers and symbols are
carried as strings exactly as asm.rs passes them. -/
inductive Inst where
  | push (r : String)
  | pop (r : String)
  | mov (s d : String)
  | mov_imm (r : String) (v : Int)
  | mov_dst (s d : String) (off : Int)
  | mov_src (s d : String) (off : Int)
  | movb_dst (s d : String) (off : Int)
  | movq_src (s d : String) (off : Int)
  | movl_src (s d : String) (off : Int)
  | movsbl_src (s d : String) (off : Int)
  | movq (s d : String)
  | movz (s d : String)
  | set (r : String)
  | lea (off : Int)
  | lea_glb (name : String)
  | add (s d : String)
  | add_imm (v : Int) (r : String)
  | add_src (s d : String) (off : Int)
  | sub (s d : String)
  | sub_imm (v : Int) (r : String)
  | mul (r : String)
  | plus
  | minus
  | neg (r : String)
  | not (r : String)
  | cmpl (v : Nat) (r : String)
  | je (l : Nat)
  | jne (l : Nat)
  | jmp (l : Nat)
  | label (l : Nat)
  | call (sym : String)
  | ret
  | leave
  | bit_division
  | multiple
  | equal
  | not_equal
  | less_than
  | greater_than
  | less_than_equal
  | greater_than_equal
  | left_shift
  | right_shift
  | bit_and
  | bit_or
  | bit_xor
  | data_section
  | text_section (globalSym : Option String)
  | func_label (sym : String)
  | glb_label (name : String)
  | glb_long (v : Int)
  | glb_byte (v : Int)
  | glb_zero (n : Nat)
  | str_load (idx : Nat)
deriving Repr

/-- Label management (src/src/asm.rs, struct Label): a counter, the two
continue/break stacks (Vec semantics: push and pop at the end) and the
per-function return label. -/
structure Label where
  label_no : Nat
  continue_labels : List Nat
  break_labels : List Nat
  return_label : Nat
deriving DecidableEq, Repr

/-- Constructor (src/src/asm.rs, Label::new). -/
def Label.new : Label := ⟨0, [], [], 0⟩

/-- Fresh label (src/src/asm.rs, Label::next_label). -/
def Label.next_label (l : Label) : Nat × Label :=
  (l.label_no + 1, { l with label_no := l.label_no + 1 })

/-- Fresh return label (src/src/asm.rs, Label::next_return_label). -/
def Label.next_return_label (l : Label) : Nat × Label :=
  let (no, l1) := l.next_label
  (no, { l1 with return_label := no })

/-- Return-label read (src/src/asm.rs, Label::get_return_label). -/
def Label.get_return_label (l : Label) : Nat := l.return_label

/-- Continue-stack push (src/src/asm.rs, Label::push_continue). -/
def Label.push_continue (l : Label) (no : Nat) : Label :=
  { l with continue_labels := l.continue_labels ++ [no] }

/-- Continue-stack pop (src/src/asm.rs, Label::pop_continue). -/
def Label.pop_continue (l : Label) : Option Nat × Label :=
  (l.continue_labels.getLast?, { l with continue_labels := l.continue_labels.dropLast })

/-- Continue-label removal by value (src/src/asm.rs, Label::remove_continue). -/
def Label.remove_continue (l : Label) (no : Nat) : Label :=
  { l with continue_labels := l.continue_labels.filter (fun d => d ≠ no) }

/-- Break-stack push (src/src/asm.rs, Label::push_break). -/
def Label.push_break (l : Label) (no : Nat) : Label :=
  { l with break_labels := l.break_labels ++ [no] }

/-- Break-stack pop (src/src/asm.rs, Label::pop_break). -/
def Label.pop_break (l : Label) : Option Nat × Label :=
  (l.break_labels.getLast?, { l with break_labels := l.break_labels.dropLast })

/-- Break-label removal by value (src/src/asm.rs, Label::remove_break). -/
def Label.remove_break (l : Label) (no : Nat) : Label :=
  { l with break_labels := l.break_labels.filter (fun d => d ≠ no) }

/-- Calling-convention argument registers (src/src/asm.rs, const REGS). -/
def REGS : List String := ["rdi", "rsi", "rdx", "rcx", "r8", "r9"]

/-- Generator environment: the platform flag (Config::is_mac, an external
boolean) and the read-only symbol table the generator borrows. -/
structure AsmEnv where
  is_mac : Bool
  sym_table : SymbolTable

/-- Generator state (src/src/asm.rs, struct Asm): the instruction text (here
an abstract instruction list), the constant-literal section (pool index and
text of each emitted string literal), the current scope and the label state. -/
structure AsmSt where
  inst : List Inst
  const_literal : List (Nat × String)
  cur_scope : Scope
  label : Label
deriving Repr

/-- Append one instruction to the emission buffer. -/
def emit (st : AsmSt) (i : Inst) : AsmSt := { st with inst := st.inst ++ [i] }

/-- Append several instructions to the emission buffer. -/
def emits (st : AsmSt) (is : List Inst) : AsmSt := { st with inst := st.inst ++ is }

/-- Function-symbol spelling (src/src/asm.rs, Asm::generate_func_symbol). -/
def generate_func_symbol (env : AsmEnv) (s : String) : String :=
  if env.is_mac then "_" ++ s else s

/-- Label emission (src/src/asm.rs, Asm::generate_label_inst). -/
def generate_label_inst (no : Nat) (st : AsmSt) : AsmSt := emit st (.label no)

/-- Unconditional jump emission (src/src/asm.rs, Asm::generate_jmp_inst). -/
def generate_jmp_inst (no : Nat) (st : AsmSt) : AsmSt := emit st (.jmp no)

/-- Equal-branch emission (src/src/asm.rs, Asm::generate_je_inst). -/
def generate_je_inst (no : Nat) (st : AsmSt) : AsmSt := emit st (.je no)

/-- Not-equal-branch emission (src/src/asm.rs, Asm::generate_jne_inst). -/
def generate_jne_inst (no : Nat) (st : AsmSt) : AsmSt := emit st (.jne no)

/-- Compare emission (src/src/asm.rs, Asm::generate_cmp_inst). -/
def generate_cmp_inst (v : Nat) (r : String) (st : AsmSt) : AsmSt := emit st (.cmpl v r)

/-- Lvalue address computation (src/src/asm.rs, Asm::generate_lvalue_address):
pushes the address of a variable (global label, array base, or frame offset
plus 8); any other node is a fatal error. -/
def generate_lvalue_address (env : AsmEnv) (a : AstType) (st : AsmSt) : Option AsmSt :=
  match a with
  | .Variable _ _ s =>
    match get_var_symbol env.sym_table st.cur_scope s with
    | none => none
    | some sym =>
      let st1 :=
        match sym.scope with
        | .Global => emit st (.lea_glb s)
        | _ =>
          match sym.strt with
          | .Array _ => emit st (.lea (sym.size : Int))
          | _ => emit st (.lea ((sym.offset : Int) + 8))
      some (emit st1 (.push "rax"))
  | _ => none

/-- Value load dispatch by structure kind (src/src/asm.rs,
Asm::generate_variable_by_strt). -/
def generate_variable_by_strt (sym : Symbol) (st : AsmSt) : Option AsmSt :=
  match sym.strt with
  | .Pointer => some (emit st (.movq_src "rcx" "rax" 0))
  | .Array _ => some (emit st (.movq "rcx" "rax"))
  | .Identifier =>
    match sym.t with
    | .Int => some (emit st (.movl_src "rcx" "eax" 0))
    | .Char => some (emit st (.movsbl_src "rcx" "eax" 0))
    | _ => none
  | .Struct => some st
  | .Unknown => none

/-- Variable read (src/src/asm.rs, Asm::generate_variable). -/
def generate_variable (env : AsmEnv) (a : AstType) (st : AsmSt) : Option AsmSt := do
  let st1 ← generate_lvalue_address env a st
  match a with
  | .Variable _ _ name => do
    let st2 := emit st1 (.pop "rcx")
    let sym ← get_var_symbol env.sym_table st2.cur_scope name
    let st3 ← generate_variable_by_strt sym st2
    some (emit st3 (.push "rax"))
  | _ => none

/-- Operator instruction selection (src/src/asm.rs, Asm::operator); the
process::abort catch-all is none. -/
def operator (ope : AstType) : Option Inst :=
  match ope with
  | .Multiple _ _ => some .multiple
  | .Equal _ _ => some .equal
  | .NotEqual _ _ => some .not_equal
  | .LessThan _ _ => some .less_than
  | .GreaterThan _ _ => some .greater_than
  | .LessThanEqual _ _ => some .less_than_equal
  | .GreaterThanEqual _ _ => some .greater_than_equal
  | .LeftShift _ _ => some .left_shift
  | .RightShift _ _ => some .right_shift
  | .BitAnd _ _ => some .bit_and
  | .BitOr _ _ => some .bit_or
  | .BitXor _ _ => some .bit_xor
  | .Division _ _ | .Remainder _ _ => some .bit_division
  | _ => none

/-- Integer literal (src/src/asm.rs, Asm::generate_factor). -/
def generate_factor (st : AsmSt) (a : Int) : AsmSt :=
  emits st [.mov_imm "rax" a, .push "rax"]

/-- Sizeof literal (src/src/asm.rs, Asm::generate_sizeof). -/
def generate_sizeof (st : AsmSt) (a : Nat) : AsmSt :=
  emits st [.mov_imm "rax" (a : Int), .push "rax"]

/-- Address-of operator (src/src/asm.rs, Asm::generate_address). -/
def generate_address (env : AsmEnv) (a : AstType) (st : AsmSt) : Option AsmSt :=
  match a with
  | .Variable _ _ name => do
    let sym ← get_var_symbol env.sym_table st.cur_scope name
    some (emits st [.lea ((sym.offset : Int) + 8), .push "rax"])
  | _ => none

/-- Post-increment (src/src/asm.rs, Asm::generate_post_inc). -/
def generate_post_inc (env : AsmEnv) (a : AstType) (st : AsmSt) : Option AsmSt := do
  let st1 ← generate_lvalue_address env a st
  match a with
  | .Variable _ s _ =>
    match s with
    | .Identifier => some (emits st1 [.pop "rcx", .mov_src "rcx" "rax" 0, .push "rax",
        .add_imm 1 "rax", .mov_dst "rax" "rcx" 0])
    | .Pointer => some (emits st1 [.pop "rcx", .mov_src "rcx" "rax" 0, .push "rax",
        .add_imm 8 "rax", .mov_dst "rax" "rcx" 0])
    | _ => none
  | _ => none

/-- Post-decrement (src/src/asm.rs, Asm::generate_post_dec). -/
def generate_post_dec (env : AsmEnv) (a : AstType) (st : AsmSt) : Option AsmSt := do
  let st1 ← generate_lvalue_address env a st
  match a with
  | .Variable _ s _ =>
    match s with
    | .Identifier => some (emits st1 [.pop "rcx", .mov_src "rcx" "rax" 0, .push "rax",
        .sub_imm 1 "rax", .mov_dst "rax" "rcx" 0])
    | .Pointer => some (emits st1 [.pop "rcx", .mov_src "rcx" "rax" 0, .push "rax",
        .sub_imm 8 "rax", .mov_dst "rax" "rcx" 0])
    | _ => none
  | _ => none

/-- Pre-increment (src/src/asm.rs, Asm::generate_pre_inc). -/
def generate_pre_inc (env : AsmEnv) (a : AstType) (st : AsmSt) : Option AsmSt := do
  let st1 ← generate_lvalue_address env a st
  match a with
  | .Variable _ s _ =>
    match s with
    | .Identifier => some (emits st1 [.pop "rcx", .mov_src "rcx" "rax" 0,
        .add_imm 1 "rax", .mov_dst "rax" "rcx" 0, .push "rax"])
    | .Pointer => some (emits st1 [.pop "rcx", .mov_src "rcx" "rax" 0,
        .add_imm 8 "rax", .mov_dst "rax" "rcx" 0, .push "rax"])
    | _ => none
  | _ => none

/-- Pre-decrement (src/src/asm.rs, Asm::generate_pre_dec). -/
def generate_pre_dec (env : AsmEnv) (a : AstType) (st : AsmSt) : Option AsmSt := do
  let st1 ← generate_lvalue_address env a st
  match a with
  | .Variable _ s _ =>
    match s with
    | .Identifier => some (emits st1 [.pop "rcx", .mov_src "rcx" "rax" 0,
        .sub_imm 1 "rax", .mov_dst "rax" "rcx" 0, .push "rax"])
    | .Pointer => some (emits st1 [.pop "rcx", .mov_src "rcx" "rax" 0,
        .sub_imm 8 "rax", .mov_dst "rax" "rcx" 0, .push "rax"])
    | _ => none
  | _ => none

/-- Continue statement (src/src/asm.rs, Asm::generate_statement_continue):
pops the continue-label stack and jumps to the popped label; an empty stack is
a fatal error. -/
def generate_statement_continue (st : AsmSt) : Option AsmSt :=
  let (labelOpt, lab1) := st.label.pop_continue
  match labelOpt with
  | none => none
  | some no => some (emit { st with label := lab1 } (.jmp no))

/-- Break statement (src/src/asm.rs, Asm::generate_statement_break): pops the
break-label stack and jumps to the popped label; an empty stack is fatal. -/
def generate_statement_break (st : AsmSt) : Option AsmSt :=
  let (labelOpt, lab1) := st.label.pop_break
  match labelOpt with
  | none => none
  | some no => some (emit { st with label := lab1 } (.jmp no))

/-- String-literal pool entry (src/src/asm.rs, Asm::generate_string_literal). -/
def generate_string_literal (a : AstType) (st : AsmSt) : Option AsmSt :=
  match a with
  | .StringLiteral s i => some { st with const_literal := st.const_literal ++ [(i, s)] }
  | _ => none

/-- String-literal address load (src/src/asm.rs, Asm::generate_string). -/
def generate_string (_s : String) (i : Nat) (st : AsmSt) : AsmSt :=
  emits st [.str_load i, .push "rax"]

/-- Global-variable initialiser (src/src/asm.rs, Asm::generate_global_assign). -/
def generate_global_assign (a b : AstType) (st : AsmSt) : Option AsmSt :=
  match b with
  | .Factor i =>
    match a with
    | .Variable t _ name =>
      let st1 := emit st (.glb_label name)
      match t with
      | .Int => some (emit st1 (.glb_long i))
      | .Char => some (emit st1 (.glb_byte i))
      | _ => none
    | _ => none
  | _ => none

/-- Global-section item loop of Asm::generate_global (src/src/asm.rs). -/
def global_items (xs : List AstType) (st : AsmSt) : Option AsmSt :=
  match xs with
  | [] => some st
  | d :: rest =>
    match d with
    | .Assign a b => do
      let st1 ← generate_global_assign a b st
      global_items rest st1
    | .Variable _ _ name => global_items rest (emits st [.glb_label name, .glb_zero 8])
    | .Struct _ _ => global_items rest st
    | _ => none

/-- Global section (src/src/asm.rs, Asm::generate_global). -/
def generate_global (xs : List AstType) (st : AsmSt) : Option AsmSt :=
  global_items xs (emit st .data_section)

/-- Function prologue (src/src/asm.rs, Asm::generate_func_start): section
directives, the function label, saved base pointer and the 16-byte aligned
frame reservation sized from the local scope. -/
def generate_func_start (env : AsmEnv) (a : String) (st : AsmSt) : AsmSt :=
  let pos0 := env.sym_table.size (.Local a)
  let pos := (pos0 / 16) * 16 + 16
  emits st [.text_section (if a = "main" then some (generate_func_symbol env a) else none),
    .func_label (generate_func_symbol env a), .push "rbp", .mov "rsp" "rbp",
    .sub_imm (pos : Int) "rsp"]

/-- Function epilogue (src/src/asm.rs, Asm::generate_func_end). -/
def generate_func_end (st : AsmSt) : AsmSt := emits st [.leave, .ret]

/-- Argument move loop of Asm::generate_func_args (src/src/asm.rs): the first
six parameters are moved from the calling-convention registers into frame
slots, pointer parameters directly and value parameters through rax. -/
def func_args_moves (pairs : List (AstType × String)) (p : Int) (st : AsmSt) : AsmSt :=
  match pairs with
  | [] => st
  | (d, reg) :: rest =>
    let st1 :=
      match d with
      | .Variable _ s _ =>
        if s = .Pointer then emit st (.mov_dst reg "rbp" (-p))
        else emits st [.mov reg "rax", .mov_dst "rax" "rbp" (-p)]
      | _ => emits st [.mov reg "rax", .mov_dst "rax" "rbp" (-p)]
    func_args_moves rest (p + 8) st1

/-- Function parameters (src/src/asm.rs, Asm::generate_func_args). -/
def generate_func_args (a : AstType) (st : AsmSt) : Option AsmSt :=
  match a with
  | .Argment args => some (func_args_moves (args.zip REGS) 8 st)
  | _ => none

/-- Call-site argument pops of Asm::generate_call_func (src/src/asm.rs):
arguments are popped into the calling-convention registers, pointer arguments
directly and others through rax. -/
def call_arg_pops (pairs : List (AstType × String)) (st : AsmSt) : AsmSt :=
  match pairs with
  | [] => st
  | (d, reg) :: rest =>
    let st1 :=
      match d with
      | .Variable _ s _ =>
        if s = .Pointer then emit st (.pop reg)
        else emits st [.pop "rax", .mov "rax" reg]
      | _ => emits st [.pop "rax", .mov "rax" reg]
    call_arg_pops rest st1

set_option maxHeartbeats 3200000 in
mutual

/-- Main code-generation dispatch (src/src/asm.rs, Asm::generate); the
unsupported-expression panic (Argment) is none. -/
def generate (fuel : Nat) (env : AsmEnv) (ast : AstType) (st : AsmSt) : Option AsmSt :=
  match fuel with
  | 0 => none
  | f + 1 =>
    match ast with
    | .Global a => generate_global a { st with cur_scope := .Global }
    | .FuncDef t _s a b c => generate_funcdef f env t a b c { st with cur_scope := .Local a }
    | .FuncCall a b => generate_call_func f env a b st
    | .Statement _ => generate_statement f env ast st
    | .While a b => generate_statement_while f env a b st
    | .Do a b => generate_statement_do f env a b st
    | .If a b c => generate_statement_if f env a b c st
    | .For a b c d => generate_statement_for f env a b c d st
    | .Continue => generate_statement_continue st
    | .Break => generate_statement_break st
    | .Return a => generate_statement_return f env a st
    | .SizeOf a => some (generate_sizeof st a)
    | .Factor a => some (generate_factor st a)
    | .LogicalAnd a b => generate_logical_and f env a b st
    | .LogicalOr a b => generate_logical_or f env a b st
    | .Condition a b c => generate_condition f env a b c st
    | .UnPlus a => generate_unplus f env a st
    | .UnMinus a => generate_unminus f env a st
    | .Not a => generate_not f env a st
    | .BitReverse a => generate_bit_reverse f env a st
    | .Assign a b => generate_assign f env a b st
    | .PlusAssign a b => generate_plus_assign f env a b st
    | .MinusAssign a b => generate_minus_assign f env a b st
    | .MultipleAssign a b => generate_multiple_assign f env a b st
    | .DivisionAssign a b => generate_division_assign f env a b st
    | .RemainderAssign a b => generate_remainder_assign f env a b st
    | .Variable _ _ _ => generate_variable env ast st
    | .PreInc a => generate_pre_inc env a st
    | .PreDec a => generate_pre_dec env a st
    | .PostInc a => generate_post_inc env a st
    | .PostDec a => generate_post_dec env a st
    | .Plus a b => generate_plus f env a b st
    | .Minus a b => generate_minus f env a b st
    | .Multiple a b | .Division a b | .Remainder a b | .Equal a b | .NotEqual a b
    | .LessThan a b | .GreaterThan a b | .LessThanEqual a b | .GreaterThanEqual a b
    | .LeftShift a b | .RightShift a b | .BitAnd a b | .BitOr a b | .BitXor a b =>
      generate_operator f env ast a b st
    | .Address a => generate_address env a st
    | .Indirect a => generate_indirect f env a st
    | .StringLiteral s i => do
      let st1 ← generate_string_literal (.StringLiteral s i) st
      some (generate_string s i st1)
    | .Struct _ _ => some st
    | _ => none

/-- Generation over a node list, as Asm::exec and the call-argument loop run
it (src/src/asm.rs): plain iteration without statement pops. -/
def gen_seq (fuel : Nat) (env : AsmEnv) (xs : List AstType) (st : AsmSt) : Option AsmSt :=
  match fuel with
  | 0 => none
  | f + 1 =>
    match xs with
    | [] => some st
    | x :: rest => do
      let st1 ← generate f env x st
      gen_seq f env rest st1

/-- Statement-item loop of Asm::generate_statement (src/src/asm.rs): each
item is generated and, when it is an expression by AstType::is_expr, its
result is popped off the runtime stack. -/
def gen_stmt_items (fuel : Nat) (env : AsmEnv) (xs : List AstType) (st : AsmSt) :
    Option AsmSt :=
  match fuel with
  | 0 => none
  | f + 1 =>
    match xs with
    | [] => some st
    | x :: rest => do
      let st1 ← generate f env x st
      let st2 := if x.is_expr then emit st1 (.pop "rax") else st1
      gen_stmt_items f env rest st2

/-- Statement block generation (src/src/asm.rs, Asm::generate_statement); a
non-Statement argument panics in the source and is none. -/
def generate_statement (fuel : Nat) (env : AsmEnv) (a : AstType) (st : AsmSt) :
    Option AsmSt :=
  match fuel with
  | 0 => none
  | f + 1 =>
    match a with
    | .Statement s => gen_stmt_items f env s st
    | _ => none

/-- Function definition (src/src/asm.rs, Asm::generate_funcdef). -/
def generate_funcdef (fuel : Nat) (env : AsmEnv) (_t : Ty) (a : String)
    (b c : AstType) (st : AsmSt) : Option AsmSt :=
  match fuel with
  | 0 => none
  | f + 1 => do
    let (return_label, lab1) := st.label.next_return_label
    let st1 := generate_func_start env a { st with label := lab1 }
    let st2 ← generate_func_args b st1
    let st3 ← generate_statement f env c st2
    some (generate_func_end (generate_label_inst return_label st3))

/-- If statement (src/src/asm.rs, Asm::generate_statement_if). -/
def generate_statement_if (fuel : Nat) (env : AsmEnv) (a b : AstType)
    (c : Option AstType) (st : AsmSt) : Option AsmSt :=
  match fuel with
  | 0 => none
  | f + 1 => do
    let (label_end, lab1) := st.label.next_label
    let st1 ← generate f env a { st with label := lab1 }
    let st2 := generate_cmp_inst 1 "rax" (emit st1 (.pop "rax"))
    match c with
    | some e => do
      let (label_if, lab2) := st2.label.next_label
      let st3 := generate_je_inst label_if { st2 with label := lab2 }
      let st4 ← generate f env e st3
      let st5 := generate_label_inst label_if (generate_jmp_inst label_end st4)
      let st6 ← generate f env b st5
      some (generate_label_inst label_end (generate_jmp_inst label_end st6))
    | none => do
      let st3 := generate_jne_inst label_end st2
      let st4 ← generate f env b st3
      some (generate_label_inst label_end st4)

/-- While statement (src/src/asm.rs, Asm::generate_statement_while):
continue/break targets are pushed before the body and removed by value after
it. -/
def generate_statement_while (fuel : Nat) (env : AsmEnv) (a b : AstType)
    (st : AsmSt) : Option AsmSt :=
  match fuel with
  | 0 => none
  | f + 1 => do
    let (label_begin, lab1) := st.label.next_label
    let (label_end, lab2) := lab1.next_label
    let lab3 := (lab2.push_continue label_begin).push_break label_end
    let st1 ← generate f env a (generate_label_inst label_begin { st with label := lab3 })
    let st2 := generate_je_inst label_end
      (generate_cmp_inst 0 "rax" (emit st1 (.pop "rax")))
    let st3 ← generate f env b st2
    let st4 := generate_label_inst label_end (generate_jmp_inst label_begin st3)
    some { st4 with label := (st4.label.remove_continue label_begin).remove_break label_end }

/-- Do-while statement (src/src/asm.rs, Asm::generate_statement_do). -/
def generate_statement_do (fuel : Nat) (env : AsmEnv) (a b : AstType)
    (st : AsmSt) : Option AsmSt :=
  match fuel with
  | 0 => none
  | f + 1 => do
    let (label_begin, lab1) := st.label.next_label
    let (label_condition, lab2) := lab1.next_label
    let (label_end, lab3) := lab2.next_label
    let lab4 := (lab3.push_continue label_condition).push_break label_end
    let st1 ← generate f env a (generate_label_inst label_begin { st with label := lab4 })
    let st2 ← generate f env b (generate_label_inst label_condition st1)
    let st3 := generate_cmp_inst 0 "rax" (emit st2 (.pop "rax"))
    let st4 := generate_label_inst label_end (generate_jne_inst label_begin st3)
    some { st4 with
      label := (st4.label.remove_continue label_condition).remove_break label_end }

/-- For statement (src/src/asm.rs, Asm::generate_statement_for): the three
clauses are each optional; generated clause values are popped. -/
def generate_statement_for (fuel : Nat) (env : AsmEnv) (a b c : Option AstType)
    (d : AstType) (st : AsmSt) : Option AsmSt :=
  match fuel with
  | 0 => none
  | f + 1 => do
    let (label_begin, lab1) := st.label.next_label
    let (label_continue, lab2) := lab1.next_label
    let (label_end, lab3) := lab2.next_label
    let lab4 := (lab3.push_continue label_continue).push_break label_end
    let st0 := { st with label := lab4 }
    let stA ←
      (match a with
       | some ini => (generate f env ini st0).map (fun s => emit s (.pop "rax"))
       | none => some st0)
    let stB := generate_label_inst label_begin stA
    let stC ←
      (match b with
       | some cond => (generate f env cond stB).map (fun s =>
           generate_je_inst label_end (generate_cmp_inst 0 "rax" (emit s (.pop "rax"))))
       | none => some stB)
    let stD ← generate f env d stC
    let stE := generate_label_inst label_continue stD
    let stF ←
      (match c with
       | some upd => (generate f env upd stE).map (fun s => emit s (.pop "rax"))
       | none => some stE)
    let stG := generate_label_inst label_end (generate_jmp_inst label_begin stF)
    some { stG with
      label := (stG.label.remove_continue label_continue).remove_break label_end }

/-- Return statement (src/src/asm.rs, Asm::generate_statement_return). -/
def generate_statement_return (fuel : Nat) (env : AsmEnv) (a : AstType)
    (st : AsmSt) : Option AsmSt :=
  match fuel with
  | 0 => none
  | f + 1 => do
    let st1 ← generate f env a st
    let st2 := if a.is_expr then emit st1 (.pop "rax") else st1
    some (generate_jmp_inst st2.label.get_return_label st2)

/-- Indirect-destination assignment (src/src/asm.rs,
Asm::generate_assign_indirect). -/
def generate_assign_indirect (fuel : Nat) (env : AsmEnv) (a b : AstType)
    (st : AsmSt) : Option AsmSt :=
  match fuel with
  | 0 => none
  | f + 1 => do
    let st1 ← generate f env a st
    let st2 ← generate f env b st1
    some (emits st2 [.pop "rax", .pop "rcx", .mov_dst "rax" "rcx" 0, .push "rax"])

/-- Assignment (src/src/asm.rs, Asm::generate_assign): variable destinations
store with a width chosen from the destination node's type (byte store for
char, full-width otherwise; pointers always full-width) and leave the stored
value pushed; indirect destinations delegate; any other destination only
generates the right-hand side. -/
def generate_assign (fuel : Nat) (env : AsmEnv) (a b : AstType) (st : AsmSt) :
    Option AsmSt :=
  match fuel with
  | 0 => none
  | f + 1 =>
    match a with
    | .Variable t s _ => do
      let st1 ← generate_lvalue_address env a st
      let st2 ← generate f env b st1
      let st3 := emits st2 [.pop "rcx", .pop "rax"]
      let st4 :=
        match s with
        | .Pointer => emit st3 (.mov_dst "rcx" "rax" 0)
        | _ =>
          match t with
          | .Char => emit st3 (.movb_dst "cl" "rax" 0)
          | _ => emit st3 (.mov_dst "rcx" "rax" 0)
      some (emit st4 (.push "rcx"))
    | .Indirect a' => generate_assign_indirect f env a' b st
    | _ => generate f env b st

/-- Compound plus-assignment (src/src/asm.rs, Asm::generate_plus_assign):
note that no result is pushed back after the store. -/
def generate_plus_assign (fuel : Nat) (env : AsmEnv) (a b : AstType) (st : AsmSt) :
    Option AsmSt :=
  match fuel with
  | 0 => none
  | f + 1 =>
    match a with
    | .Variable _ _ name => do
      let st1 ← generate_lvalue_address env a st
      let st2 ← generate f env b st1
      let st3 := emits st2 [.pop "rax", .pop "rcx", .add_src "rcx" "rax" 0]
      let sym ← get_var_symbol env.sym_table st3.cur_scope name
      match sym.t with
      | .Char => some (emit st3 (.movb_dst "al" "rcx" 0))
      | _ => some (emit st3 (.mov_dst "rax" "rcx" 0))
    | _ => none

/-- Compound minus-assignment (src/src/asm.rs, Asm::generate_minus_assign). -/
def generate_minus_assign (fuel : Nat) (env : AsmEnv) (a b : AstType) (st : AsmSt) :
    Option AsmSt :=
  match fuel with
  | 0 => none
  | f + 1 =>
    match a with
    | .Variable _ _ name => do
      let st1 ← generate_lvalue_address env a st
      let st2 ← generate f env b st1
      let st3 := emits st2 [.pop "rax", .pop "rcx", .mov_src "rcx" "rdx" 0, .sub "rax" "rdx"]
      let sym ← get_var_symbol env.sym_table st3.cur_scope name
      match sym.t with
      | .Char => some (emit st3 (.movb_dst "dl" "rcx" 0))
      | _ => some (emit st3 (.mov_dst "rdx" "rcx" 0))
    | _ => none

/-- Compound multiply-assignment (src/src/asm.rs, Asm::generate_multiple_assign). -/
def generate_multiple_assign (fuel : Nat) (env : AsmEnv) (a b : AstType) (st : AsmSt) :
    Option AsmSt :=
  match fuel with
  | 0 => none
  | f + 1 =>
    match a with
    | .Variable _ _ name => do
      let st1 ← generate_lvalue_address env a st
      let st2 ← generate f env b st1
      let st3 := emits st2 [.pop "rax", .pop "rcx", .mov_src "rcx" "rdx" 0, .mul "rdx"]
      let sym ← get_var_symbol env.sym_table st3.cur_scope name
      match sym.t with
      | .Char => some (emit st3 (.movb_dst "al" "rcx" 0))
      | _ => some (emit st3 (.mov_dst "rax" "rcx" 0))
    | _ => none

/-- Compound division-assignment (src/src/asm.rs, Asm::generate_division_assign). -/
def generate_division_assign (fuel : Nat) (env : AsmEnv) (a b : AstType) (st : AsmSt) :
    Option AsmSt :=
  match fuel with
  | 0 => none
  | f + 1 =>
    match a with
    | .Variable _ _ name => do
      let st1 ← generate_lvalue_address env a st
      let st2 ← generate f env b st1
      let st3 := emits st2 [.pop "rcx", .pop "rbx", .mov_src "rbx" "rax" 0, .bit_division]
      let sym ← get_var_symbol env.sym_table st3.cur_scope name
      match sym.t with
      | .Char => some (emit st3 (.movb_dst "al" "rbx" 0))
      | _ => some (emit st3 (.mov_dst "rax" "rbx" 0))
    | _ => none

/-- Compound remainder-assignment (src/src/asm.rs, Asm::generate_remainder_assign). -/
def generate_remainder_assign (fuel : Nat) (env : AsmEnv) (a b : AstType) (st : AsmSt) :
    Option AsmSt :=
  match fuel with
  | 0 => none
  | f + 1 =>
    match a with
    | .Variable _ _ name => do
      let st1 ← generate_lvalue_address env a st
      let st2 ← generate f env b st1
      let st3 := emits st2 [.pop "rcx", .pop "rbx", .mov_src "rbx" "rax" 0, .bit_division]
      let sym ← get_var_symbol env.sym_table st3.cur_scope name
      match sym.t with
      | .Char => some (emit st3 (.movb_dst "dl" "rbx" 0))
      | _ => some (emit st3 (.mov_dst "rdx" "rbx" 0))
    | _ => none

/-- Function call (src/src/asm.rs, Asm::generate_call_func): arguments are
generated in reverse order, popped into the argument registers (first six
only), then the call and the result push are emitted.  The callee must be
registered in the Func scope. -/
def generate_call_func (fuel : Nat) (env : AsmEnv) (lhs rhs : AstType) (st : AsmSt) :
    Option AsmSt :=
  match fuel with
  | 0 => none
  | f + 1 =>
    match lhs with
    | .Variable _ _ n =>
      match env.sym_table.search .Func n with
      | some _ =>
        match rhs with
        | .Argment v => do
          let st1 ← gen_seq f env v.reverse st
          let st2 := call_arg_pops (v.zip REGS) st1
          some (emits st2 [.call (generate_func_symbol env n), .push "rax"])
        | _ => none
      | none => none
    | _ => none

/-- Bitwise-complement operator (src/src/asm.rs, Asm::generate_bit_reverse). -/
def generate_bit_reverse (fuel : Nat) (env : AsmEnv) (a : AstType) (st : AsmSt) :
    Option AsmSt :=
  match fuel with
  | 0 => none
  | f + 1 => do
    let st1 ← generate f env a st
    some (emits st1 [.pop "rax", .not "rax", .push "rax"])

/-- Logical-not operator (src/src/asm.rs, Asm::generate_not). -/
def generate_not (fuel : Nat) (env : AsmEnv) (a : AstType) (st : AsmSt) :
    Option AsmSt :=
  match fuel with
  | 0 => none
  | f + 1 => do
    let st1 ← generate f env a st
    some (emits st1 [.pop "rax", .cmpl 0 "rax", .set "al", .movz "al" "rax", .push "rax"])

/-- Unary minus (src/src/asm.rs, Asm::generate_unminus). -/
def generate_unminus (fuel : Nat) (env : AsmEnv) (a : AstType) (st : AsmSt) :
    Option AsmSt :=
  match fuel with
  | 0 => none
  | f + 1 => do
    let st1 ← generate f env a st
    some (emits st1 [.pop "rax", .neg "rax", .push "rax"])

/-- Unary plus (src/src/asm.rs, Asm::generate_unplus). -/
def generate_unplus (fuel : Nat) (env : AsmEnv) (a : AstType) (st : AsmSt) :
    Option AsmSt :=
  match fuel with
  | 0 => none
  | f + 1 => generate f env a st

/-- Ternary conditional (src/src/asm.rs, Asm::generate_condition). -/
def generate_condition (fuel : Nat) (env : AsmEnv) (a b c : AstType) (st : AsmSt) :
    Option AsmSt :=
  match fuel with
  | 0 => none
  | f + 1 => do
    let (label_false, lab1) := st.label.next_label
    let (label_end, lab2) := lab1.next_label
    let st1 ← generate f env a { st with label := lab2 }
    let st2 := generate_je_inst label_false
      (generate_cmp_inst 0 "rax" (emit st1 (.pop "rax")))
    let st3 ← generate f env b st2
    let st4 := generate_label_inst label_false (generate_jmp_inst label_end st3)
    let st5 ← generate f env c st4
    some (generate_label_inst label_end st5)

/-- Short-circuit logical and (src/src/asm.rs, Asm::generate_logical_and). -/
def generate_logical_and (fuel : Nat) (env : AsmEnv) (a b : AstType) (st : AsmSt) :
    Option AsmSt :=
  match fuel with
  | 0 => none
  | f + 1 => do
    let (label_false, lab1) := st.label.next_label
    let (label_end, lab2) := lab1.next_label
    let st1 ← generate f env a { st with label := lab2 }
    let st2 := generate_je_inst label_false
      (generate_cmp_inst 0 "rax" (emit st1 (.pop "rax")))
    let st3 ← generate f env b st2
    let st4 := generate_je_inst label_false
      (generate_cmp_inst 0 "rax" (emit st3 (.pop "rax")))
    let st5 := generate_label_inst label_false
      (generate_jmp_inst label_end (emit st4 (.mov_imm "rax" 1)))
    some (emit (generate_label_inst label_end (emit st5 (.mov_imm "rax" 0))) (.push "rax"))

/-- Short-circuit logical or (src/src/asm.rs, Asm::generate_logical_or). -/
def generate_logical_or (fuel : Nat) (env : AsmEnv) (a b : AstType) (st : AsmSt) :
    Option AsmSt :=
  match fuel with
  | 0 => none
  | f + 1 => do
    let (label_true, lab1) := st.label.next_label
    let (label_end, lab2) := lab1.next_label
    let st1 ← generate f env a { st with label := lab2 }
    let st2 := generate_jne_inst label_true
      (generate_cmp_inst 0 "rax" (emit st1 (.pop "rax")))
    let st3 ← generate f env b st2
    let st4 := generate_jne_inst label_true
      (generate_cmp_inst 0 "rax" (emit st3 (.pop "rax")))
    let st5 := generate_label_inst label_true
      (generate_jmp_inst label_end (emit st4 (.mov_imm "rax" 0)))
    some (emit (generate_label_inst label_end (emit st5 (.mov_imm "rax" 1))) (.push "rax"))

/-- Pointer-scaled addition (src/src/asm.rs, Asm::generate_plus_with_pointer):
the second operand is multiplied by the fixed width 8 before the addition. -/
def generate_plus_with_pointer (fuel : Nat) (env : AsmEnv) (a b : AstType) (st : AsmSt) :
    Option AsmSt :=
  match fuel with
  | 0 => none
  | f + 1 => do
    let st1 ← generate f env a st
    let st2 ← generate f env b st1
    some (emits st2 [.pop "rax", .mov_imm "rcx" 8, .mul "rcx", .pop "rcx",
      .add "rax" "rcx", .push "rcx"])

/-- Variable addition dispatch (src/src/asm.rs, Asm::generate_plus_variable):
arrays take the pointer-scaled path. -/
def generate_plus_variable (fuel : Nat) (env : AsmEnv) (a b : AstType) (s : Structure)
    (st : AsmSt) : Option AsmSt :=
  match fuel with
  | 0 => none
  | f + 1 =>
    match s with
    | .Array _ => generate_plus_with_pointer f env a b st
    | _ => do
      let st1 ← generate f env a st
      let st2 ← generate f env b st1
      some (emits st2 [.pop "rcx", .pop "rax", .plus, .push "rax"])

/-- Addition (src/src/asm.rs, Asm::generate_plus): a pointer-structured
variable on the left takes the scaled path. -/
def generate_plus (fuel : Nat) (env : AsmEnv) (a b : AstType) (st : AsmSt) :
    Option AsmSt :=
  match fuel with
  | 0 => none
  | f + 1 =>
    match a with
    | .Variable _t1 s1 _ =>
      if s1 = .Pointer then generate_plus_with_pointer f env a b st
      else generate_plus_variable f env a b s1 st
    | _ => do
      let st1 ← generate f env a st
      let st2 ← generate f env b st1
      some (emits st2 [.pop "rcx", .pop "rax", .plus, .push "rax"])

/-- Pointer-scaled subtraction (src/src/asm.rs, Asm::generate_minus_with_pointer). -/
def generate_minus_with_pointer (fuel : Nat) (env : AsmEnv) (a b : AstType) (st : AsmSt) :
    Option AsmSt :=
  match fuel with
  | 0 => none
  | f + 1 => do
    let st1 ← generate f env a st
    let st2 ← generate f env b st1
    some (emits st2 [.pop "rax", .mov_imm "rcx" 8, .mul "rcx", .pop "rcx",
      .sub "rax" "rcx", .push "rcx"])

/-- Subtraction (src/src/asm.rs, Asm::generate_minus): a pointer variable
minus a variable of value type int or char (which includes pointer variables,
whose recorded value type is int or char), or minus a literal, takes the
scaled path. -/
def generate_minus (fuel : Nat) (env : AsmEnv) (a b : AstType) (st : AsmSt) :
    Option AsmSt :=
  match fuel with
  | 0 => none
  | f + 1 =>
    match a, b with
    | .Variable _t1 s1 _, .Variable t2 _ _ =>
      if s1 = .Pointer ∧ (t2 = .Int ∨ t2 = .Char) then
        generate_minus_with_pointer f env a b st
      else do
        let st1 ← generate f env a st
        let st2 ← generate f env b st1
        some (emits st2 [.pop "rcx", .pop "rax", .minus, .push "rax"])
    | .Variable _t1 s1 _, .Factor _ =>
      if s1 = .Pointer then generate_minus_with_pointer f env a b st
      else do
        let st1 ← generate f env a st
        let st2 ← generate f env b st1
        some (emits st2 [.pop "rcx", .pop "rax", .minus, .push "rax"])
    | _, _ => do
      let st1 ← generate f env a st
      let st2 ← generate f env b st1
      some (emits st2 [.pop "rcx", .pop "rax", .minus, .push "rax"])

/-- Generic binary operator (src/src/asm.rs, Asm::generate_operator):
remainder results live in rdx, everything else in rax. -/
def generate_operator (fuel : Nat) (env : AsmEnv) (ast a b : AstType) (st : AsmSt) :
    Option AsmSt :=
  match fuel with
  | 0 => none
  | f + 1 => do
    let st1 ← generate f env a st
    let st2 ← generate f env b st1
    let op ← operator ast
    let st3 := emits st2 [.pop "rcx", .pop "rax", op]
    match ast with
    | .Remainder _ _ => some (emit st3 (.push "rdx"))
    | _ => some (emit st3 (.push "rax"))

/-- Dereference (src/src/asm.rs, Asm::generate_indirect). -/
def generate_indirect (fuel : Nat) (env : AsmEnv) (a : AstType) (st : AsmSt) :
    Option AsmSt :=
  match fuel with
  | 0 => none
  | f + 1 => do
    let st1 ← generate f env a st
    some (emits st1 [.pop "rax", .mov_src "rax" "rcx" 0, .push "rcx"])

end

/-- Whole-tree generation (src/src/asm.rs, Asm::exec). -/
def exec (fuel : Nat) (env : AsmEnv) (tree : List AstType) (st : AsmSt) : Option AsmSt :=
  gen_seq fuel env tree st

/-- Initial generator state (src/src/asm.rs, Asm::new). -/
def AsmSt.new : AsmSt := ⟨[], [], .Unknown, Label.new⟩

/-- Static stack effect of one abstract instruction: only push and pop move
the runtime stack pointer among the emitted operations. -/
def inst_stack_delta (i : Inst) : Int :=
  match i with
  | .push _ => 1
  | .pop _ => -1
  | _ => 0

/-- Net push/pop balance of an emitted sequence. -/
def stack_delta (code : List Inst) : Int := (code.map inst_stack_delta).sum

/-- A sequence with no branch, label, call or return instructions: its
static push/pop balance is exactly its net runtime stack effect. -/
def straight_line (code : List Inst) : Bool :=
  code.all (fun i =>
    match i with
    | .je _ | .jne _ | .jmp _ | .label _ | .call _ | .ret | .leave => false
    | _ => true)

/-
Concrete fixtures used by the claim theorems.
-/

/-- Scalars int a, char c, int i registered in order in the local scope of a
function f (offsets 0, 8, 16). -/
def tbl_f : SymbolTable :=
  ((SymbolTable.new.register_sym (Symbol.new (.Local "f") "a" .Int .Identifier)).register_sym
    (Symbol.new (.Local "f") "c" .Char .Identifier)).register_sym
    (Symbol.new (.Local "f") "i" .Int .Identifier)

/-- Generator environment over tbl_f (Linux backend). -/
def env_f : AsmEnv := ⟨false, tbl_f⟩

/-- Generator state inside function f. -/
def st_f : AsmSt := { AsmSt.new with cur_scope := .Local "f" }

/-- tbl_f extended with int pointers p and q. -/
def tbl_ptr : SymbolTable :=
  (tbl_f.register_sym (Symbol.new (.Local "f") "p" .Int .Pointer)).register_sym
    (Symbol.new (.Local "f") "q" .Int .Pointer)

/-- Generator environment over tbl_ptr. -/
def env_ptr : AsmEnv := ⟨false, tbl_ptr⟩

/-- A two-dimensional int array a[2][3] registered in the local scope of f. -/
def tbl_arr : SymbolTable :=
  SymbolTable.new.register_sym (Symbol.new (.Local "f") "a" .Int (.Array [2, 3]))

/-- tbl_arr followed by a scalar int b. -/
def tbl_arr_b : SymbolTable :=
  tbl_arr.register_sym (Symbol.new (.Local "f") "b" .Int .Identifier)

/-- A short-typed pointer p registered in the local scope of f. -/
def tbl_sp : SymbolTable :=
  SymbolTable.new.register_sym (Symbol.new (.Local "f") "p" .Short .Pointer)

/-- tbl_sp followed by a scalar int b. -/
def tbl_sp_b : SymbolTable :=
  tbl_sp.register_sym (Symbol.new (.Local "f") "b" .Int .Identifier)

/-
Claim theorems.
-/

/-- C1.  The claim states that every expression node's emitted sequence has a
net runtime stack effect of exactly one pushed value.  The code violates this
for compound assignment: for a += 1 (an expression by AstType::is_expr) the
generator emits a branch-free sequence whose pushes and pops balance to zero,
because generate_plus_assign stores the result without pushing it back,
contradicting the documented contract (and making the statement-level pop
that follows every expression underflow the runtime stack). -/
theorem c1_compound_assign_stack_effect :
    (generate 20 env_f (.PlusAssign (.Variable .Int .Identifier "a") (.Factor 1)) st_f).map
      (fun s => (s.inst, stack_delta s.inst, straight_line s.inst)) =
      some ([.lea 8, .push "rax", .mov_imm "rax" 1, .push "rax",
             .pop "rax", .pop "rcx", .add_src "rcx" "rax" 0, .mov_dst "rax" "rcx" 0],
            0, true) ∧
    (AstType.PlusAssign (.Variable .Int .Identifier "a") (.Factor 1)).is_expr = true := by
  constructor
  · rfl
  · rfl

/-- C3.  For int a[2][3] (element width 8) the symbol table's size folds the
dimension sum, giving (2+3)*8 = 40, while the claimed footprint is the
dimension product 2*3*8 = 48 — exactly what register_variable itself charges
for the next symbol's offset, and what the (spec-modelled) per-symbol size,
read back by sizeof through factor_sizeof, records.  The two accountings
disagree, so the claim fails on SymbolTable::size. -/
theorem c3_array_size_sum_vs_product :
    tbl_arr.size (.Local "f") = 40 ∧
    (tbl_arr.search (.Local "f") "a").map Symbol.size = some 48 ∧
    (factor 10 ⟨[⟨.SizeOf, "sizeof"⟩, ⟨.LeftParen, "("⟩, ⟨.Variable, "a"⟩, ⟨.RightParen, ")"⟩],
        0, 0, .Local "f", tbl_arr⟩).map (fun p => p.1) = some (.SizeOf 48) ∧
    (tbl_arr_b.search (.Local "f") "b").map Symbol.offset = some 48 ∧
    (40 : Nat) ≠ 2 * 3 * 8 := by
  refine ⟨by decide, by decide, rfl, by decide, by decide⟩

/-- C5 counterexample.  The claim says generation aborts only when continue
appears outside any loop, and that every continue jumps to the nearest
enclosing loop's target.  But generate_statement_continue pops the stack, so
a while loop whose body holds two continue statements — both inside the loop
— exhausts the stack and generation aborts. -/
theorem c5_continue_pop_cex :
    generate 30 env_f (.While (.Factor 0) (.Statement [.Continue, .Continue])) st_f
      = none := by
  rfl

/-- C9.  The symbol table records the char width as the full 8-byte machine
word (same as int) — visible both in type_size and in the frame-size
accounting of a char scalar — while generate_assign emits a narrow byte store
(movb into cl) for a char destination and a full-width store for an int
destination. -/
theorem c9_char_width_vs_byte_store :
    SymbolTable.new.type_size .Char = 8 ∧
    SymbolTable.new.type_size .Int = 8 ∧
    (SymbolTable.new.register_sym (Symbol.new (.Local "f") "c" .Char .Identifier)).size
      (.Local "f") = 8 ∧
    (generate 20 env_f (.Assign (.Variable .Char .Identifier "c") (.Factor 7)) st_f).map
      (fun s => s.inst) =
      some [.lea 16, .push "rax", .mov_imm "rax" 7, .push "rax",
            .pop "rcx", .pop "rax", .movb_dst "cl" "rax" 0, .push "rcx"] ∧
    (generate 20 env_f (.Assign (.Variable .Int .Identifier "i") (.Factor 7)) st_f).map
      (fun s => s.inst) =
      some [.lea 24, .push "rax", .mov_imm "rax" 7, .push "rax",
            .pop "rcx", .pop "rax", .mov_dst "rcx" "rax" 0, .push "rcx"] := by
  refine ⟨rfl, rfl, by decide, rfl, rfl⟩

/-- C10.  sizeof(int) parses to the compile-time literal 4 and sizeof(char)
to 1 (through factor on a sizeof factor), while the symbol table charges 8
bytes for an int scalar and 8 bytes for a char scalar (the char declared
after an int sits at offset 8, and each scalar adds 8 to the frame size), so
the sizeof-reported value and the stack-layout footprint differ for the same
scalar variable. -/
theorem c10_sizeof_literal_vs_footprint :
    (factor 8 ⟨[⟨.SizeOf, "sizeof"⟩, ⟨.LeftParen, "("⟩, ⟨.Int, "int"⟩, ⟨.RightParen, ")"⟩],
        0, 0, .Local "f", tbl_f⟩).map (fun p => p.1) = some (.SizeOf 4) ∧
    (factor 8 ⟨[⟨.SizeOf, "sizeof"⟩, ⟨.LeftParen, "("⟩, ⟨.Char, "char"⟩, ⟨.RightParen, ")"⟩],
        0, 0, .Local "f", tbl_f⟩).map (fun p => p.1) = some (.SizeOf 1) ∧
    SymbolTable.new.type_size .Int = 8 ∧
    SymbolTable.new.type_size .Char = 8 ∧
    (tbl_f.search (.Local "f") "c").map Symbol.offset = some 8 ∧
    tbl_f.size (.Local "f") = 24 ∧
    (4 : Nat) ≠ 8 ∧ (1 : Nat) ≠ 8 := by
  refine ⟨rfl, rfl, rfl, rfl, by decide, by decide, by decide, by decide⟩

/-- C2 counterexample.  The claim computes a pointer predecessor's byte size
with the pointer width (8), but register_variable advances the offset by the
type_size of the pointer's value type: after a short-typed pointer p the next
symbol b gets offset 0 + type_size(Short) = 0, not the claimed 0 + 8. -/
theorem c2_pointer_width_cex :
    (tbl_sp_b.search (.Local "f") "b").map (fun s => (s.pos, s.offset)) = some (2, 0) ∧
    (tbl_sp.search (.Local "f") "p").map (byte_size_spec tbl_sp) = some 8 ∧
    (0 : Nat) ≠ 0 + 8 := by
  refine ⟨by decide, by decide, by decide⟩

/-- Generator state whose label stacks hold the single continue target 5 and
break target 7. -/
def st_loop : AsmSt :=
  { AsmSt.new with label := { Label.new with continue_labels := [5], break_labels := [7] } }

/-- C5 amended.  A continue (resp. break) emits an unconditional jump to the
label on top of the respective stack and pops that label off the stack (so
each pushed label serves at most one continue/break, and an empty stack —
which can also arise inside a loop after an earlier continue/break consumed
the label — is a fatal error); a single continue in a while body does target
that loop's entry-pushed begin label, and the loop removes its labels on
exit. -/
theorem c5_continue_break_pop (f : Nat) (env : AsmEnv) (st : AsmSt)
    (pre : List Nat) (l : Nat) :
    (st.label.continue_labels = [] → generate (f + 1) env .Continue st = none) ∧
    (st.label.continue_labels = pre ++ [l] →
      generate (f + 1) env .Continue st =
        some { st with inst := st.inst ++ [.jmp l]
                       label := { st.label with continue_labels := pre } }) ∧
    (st.label.break_labels = [] → generate (f + 1) env .Break st = none) ∧
    (st.label.break_labels = pre ++ [l] →
      generate (f + 1) env .Break st =
        some { st with inst := st.inst ++ [.jmp l]
                       label := { st.label with break_labels := pre } }) ∧
    (generate 30 env_f (.While (.Factor 0) (.Statement [.Continue])) st_f).map
      (fun s => (s.inst, s.label.continue_labels, s.label.break_labels)) =
      some ([.label 1, .mov_imm "rax" 0, .push "rax", .pop "rax", .cmpl 0 "rax",
             .je 2, .jmp 1, .jmp 1, .label 2], [], []) := by
  refine ⟨?_, ?_, ?_, ?_, rfl⟩
  · intro h
    simp [generate, generate_statement_continue, Label.pop_continue, h]
  · intro h
    simp [generate, generate_statement_continue, Label.pop_continue, h, emit]
  · intro h
    simp [generate, generate_statement_break, Label.pop_break, h]
  · intro h
    simp [generate, generate_statement_break, Label.pop_break, h, emit]

/-- C5 witness: the amended theorem applied at concrete label-stack states. -/
theorem c5_continue_break_pop_witness :
    generate 1 env_f .Continue st_loop =
      some { st_loop with inst := [.jmp 5]
                          label := { st_loop.label with continue_labels := [] } } ∧
    generate 1 env_f .Break st_loop =
      some { st_loop with inst := [.jmp 7]
                          label := { st_loop.label with break_labels := [] } } ∧
    generate 1 env_f .Continue st_f = none := by
  refine ⟨?_, ?_, (c5_continue_break_pop 0 env_f st_f [] 0).1 rfl⟩
  · have h := (c5_continue_break_pop 0 env_f st_loop [] 5).2.1 rfl
    simpa using h
  · have h := (c5_continue_break_pop 0 env_f st_loop [] 7).2.2.2.1 rfl
    simpa using h

/-- C6.  Registering a symbol whose scope and name are already present leaves
the table exactly as it was, while func_def on a function name already found
in the Func namespace aborts (after reading the type token and the name
token) before parsing any further. -/
theorem c6_duplicate_registration :
    (∀ (tbl : SymbolTable) (sym s0 : Symbol),
      tbl.search sym.scope sym.var = some s0 → tbl.register_sym sym = tbl) ∧
    (∀ (f : Nat) (toks : List TokenInfo) (p strc : Nat) (sc : Scope)
       (tbl : SymbolTable) (tv n : String) (s0 : Symbol),
      toks.get? p = some ⟨.Int, tv⟩ →
      toks.get? (p + 1) = some ⟨.Variable, n⟩ →
      tbl.search .Func n = some s0 →
      func_def (f + 1) ⟨toks, p, strc, sc, tbl⟩ = none) := by
  constructor
  · intro tbl sym s0 h
    simp [SymbolTable.register_sym, h]
  · intro f toks p strc sc tbl tv n s0 h1 h2 h3
    simp only [List.get?_eq_getElem?] at h1 h2
    simp [func_def, generate_type, next_consume, search_symbol, switch_scope,
      h1, h2, h3]

/-- C6 witness: the no-op and the fatal duplicate function at concrete
inputs. -/
theorem c6_duplicate_registration_witness :
    tbl_f.register_sym (Symbol.new (.Local "f") "a" .Char .Pointer) = tbl_f ∧
    func_def 5 ⟨[⟨.Int, "int"⟩, ⟨.Variable, "main"⟩, ⟨.LeftParen, "("⟩],
      0, 0, .Global, SymbolTable.new.register_sym (Symbol.new .Func "main" .Int .Identifier)⟩
      = none := by
  constructor
  · exact c6_duplicate_registration.1 tbl_f (Symbol.new (.Local "f") "a" .Char .Pointer)
      { scope := .Local "f", var := "a", t := .Int, strt := .Identifier,
        pos := 1, offset := 0, size := 8, members := [] } (by decide)
  · exact c6_duplicate_registration.2 4
      [⟨.Int, "int"⟩, ⟨.Variable, "main"⟩, ⟨.LeftParen, "("⟩] 0 0 .Global
      (SymbolTable.new.register_sym (Symbol.new .Func "main" .Int .Identifier))
      "int" "main"
      { scope := .Func, var := "main", t := .Int, strt := .Identifier,
        pos := 1, offset := 0, size := 8, members := [] }
      (by decide) (by decide) (by decide)

/-- Global int g next to a local char g of function f. -/
def tbl_g : SymbolTable :=
  SymbolTable.new.register_sym (Symbol.new .Global "g" .Int .Identifier)

/-- tbl_g with a same-named local symbol added. -/
def tbl_gl : SymbolTable :=
  tbl_g.register_sym (Symbol.new (.Local "f") "g" .Char .Identifier)

/-- C7.  Both the parser's search_symbol and the generator's get_var_symbol
search the function-local scope first and consult the global scope only on a
local miss; a global and a local symbol of one name therefore coexist without
collision, and a reference inside a function with no local binding resolves
to the global symbol. -/
theorem c7_local_then_global_lookup :
    (∀ (tbl : SymbolTable) (fn v : String) (s : Symbol),
      tbl.search (.Local fn) v = some s →
        search_symbol tbl (.Local fn) v = some s ∧
        get_var_symbol tbl (.Local fn) v = some s) ∧
    (∀ (tbl : SymbolTable) (fn v : String),
      tbl.search (.Local fn) v = none →
        search_symbol tbl (.Local fn) v = tbl.search .Global v ∧
        get_var_symbol tbl (.Local fn) v = tbl.search .Global v) ∧
    ((tbl_gl.search .Global "g").isSome ∧
     (tbl_gl.search (.Local "f") "g").isSome ∧
     tbl_gl.search (.Local "f") "g" ≠ tbl_gl.search .Global "g" ∧
     search_symbol tbl_gl (.Local "f") "g" = tbl_gl.search (.Local "f") "g" ∧
     search_symbol tbl_g (.Local "f") "g" = tbl_g.search .Global "g" ∧
     get_var_symbol tbl_g (.Local "f") "g" = tbl_g.search .Global "g") := by
  refine ⟨?_, ?_, by decide, by decide, by decide, by decide, by decide, by decide⟩
  · intro tbl fn v s h
    constructor
    · simp [search_symbol, h]
    · simp [get_var_symbol, h]
  · intro tbl fn v h
    constructor
    · simp [search_symbol, h]
    · simp [get_var_symbol, h]

/-- C7 witness: the two lookup modes applied at tbl_gl and tbl_g. -/
theorem c7_local_then_global_lookup_witness :
    search_symbol tbl_gl (.Local "f") "g" =
      some { scope := .Local "f", var := "g", t := .Char, strt := .Identifier,
             pos := 1, offset := 0, size := 8, members := [] } ∧
    search_symbol tbl_g (.Local "f") "g" = tbl_g.search .Global "g" := by
  constructor
  · exact (c7_local_then_global_lookup.1 tbl_gl "f" "g" _ (by decide)).1
  · exact (c7_local_then_global_lookup.2.1 tbl_g "f" "g" (by decide)).1

/-- C8.  A pointer-variable left operand makes plus and minus scale the other
operand: the generated sequence pops it, multiplies it by the fixed width 8
(mov_imm rcx 8 then mul) and only then adds or subtracts; and pointer minus
pointer (the right operand a pointer variable, whose recorded value type int
or char satisfies the dispatch guard) emits exactly the same scaled sequence
as pointer minus integer — the result is never divided back down. -/
theorem c8_pointer_scaling (g : Nat) (env : AsmEnv) (st stA st2 : AsmSt)
    (t t2 : Ty) (n m : String) (b : AstType) (k : Int)
    (ha : generate g env (.Variable t .Pointer n) st = some stA) :
    (generate g env b stA = some st2 →
      generate (g + 3) env (.Plus (.Variable t .Pointer n) b) st =
        some (emits st2 [.pop "rax", .mov_imm "rcx" 8, .mul "rcx", .pop "rcx",
          .add "rax" "rcx", .push "rcx"])) ∧
    (generate g env (.Factor k) stA = some st2 →
      generate (g + 3) env (.Minus (.Variable t .Pointer n) (.Factor k)) st =
        some (emits st2 [.pop "rax", .mov_imm "rcx" 8, .mul "rcx", .pop "rcx",
          .sub "rax" "rcx", .push "rcx"])) ∧
    ((t2 = .Int ∨ t2 = .Char) →
      generate g env (.Variable t2 .Pointer m) stA = some st2 →
      generate (g + 3) env (.Minus (.Variable t .Pointer n) (.Variable t2 .Pointer m)) st =
        some (emits st2 [.pop "rax", .mov_imm "rcx" 8, .mul "rcx", .pop "rcx",
          .sub "rax" "rcx", .push "rcx"])) := by
  refine ⟨?_, ?_, ?_⟩
  · intro hb
    simp [generate, generate_plus, generate_plus_with_pointer, ha, hb]
  · intro hb
    simp [generate, generate_minus, generate_minus_with_pointer, ha, hb]
  · intro ht2 hb
    simp [generate, generate_minus, generate_minus_with_pointer, ha, hb, ht2]

/-- C8 witness: scaled pointer plus integer and pointer minus pointer at a
concrete table. -/
theorem c8_pointer_scaling_witness :
    generate 20 env_ptr (.Plus (.Variable .Int .Pointer "p") (.Factor 3)) st_f =
      some (emits
        { st_f with inst := [.lea 32, .push "rax", .pop "rcx", .movq_src "rcx" "rax" 0,
            .push "rax", .mov_imm "rax" 3, .push "rax"] }
        [.pop "rax", .mov_imm "rcx" 8, .mul "rcx", .pop "rcx",
         .add "rax" "rcx", .push "rcx"]) ∧
    generate 20 env_ptr (.Minus (.Variable .Int .Pointer "p") (.Variable .Int .Pointer "q")) st_f =
      some (emits
        { st_f with inst := [.lea 32, .push "rax", .pop "rcx", .movq_src "rcx" "rax" 0,
            .push "rax", .lea 40, .push "rax", .pop "rcx", .movq_src "rcx" "rax" 0,
            .push "rax"] }
        [.pop "rax", .mov_imm "rcx" 8, .mul "rcx", .pop "rcx",
         .sub "rax" "rcx", .push "rcx"]) := by
  constructor
  · exact (c8_pointer_scaling 17 env_ptr st_f
      { st_f with inst := [.lea 32, .push "rax", .pop "rcx", .movq_src "rcx" "rax" 0,
          .push "rax"] }
      { st_f with inst := [.lea 32, .push "rax", .pop "rcx", .movq_src "rcx" "rax" 0,
          .push "rax", .mov_imm "rax" 3, .push "rax"] }
      .Int .Int "p" "q" (.Factor 3) 3 rfl).1 rfl
  · exact (c8_pointer_scaling 17 env_ptr st_f
      { st_f with inst := [.lea 32, .push "rax", .pop "rcx", .movq_src "rcx" "rax" 0,
          .push "rax"] }
      { st_f with inst := [.lea 32, .push "rax", .pop "rcx", .movq_src "rcx" "rax" 0,
          .push "rax", .lea 40, .push "rax", .pop "rcx", .movq_src "rcx" "rax" 0,
          .push "rax"] }
      .Int .Int "p" "q" (.Factor 3) 3 rfl).2.2 (Or.inl rfl) rfl

/-
Layout machinery for the C2 theorem.
-/

/-- The widths table ignores which table it is read from. -/
theorem type_size_irrel (tbl tbl' : SymbolTable) :
    tbl.type_size = tbl'.type_size := by
  funext t
  cases t <;> rfl

/-- The spec-modelled footprint also ignores the table it is read from. -/
theorem spec_size_irrel (tbl tbl' : SymbolTable) (t : Ty) (strt : Structure)
    (ms : List MemberSym) : tbl.spec_size t strt ms = tbl'.spec_size t strt ms := by
  unfold SymbolTable.spec_size
  rw [type_size_irrel tbl tbl']

/-- The registration byte advance ignores the table it is read from. -/
theorem byte_size_code_irrel (tbl tbl' : SymbolTable) (s : Symbol) :
    byte_size_code tbl s = byte_size_code tbl' s := by
  unfold byte_size_code
  rw [type_size_irrel tbl tbl']

/-- The source's element-count fold is the dimension product. -/
theorem foldl_mul_one (v : List Nat) :
    v.foldl (fun acc item => acc * item) 1 = v.prod :=
  (List.prod_eq_foldl).symm

/-- Position and offset register_variable will give the next symbol of a
scope: 1 and 0 on an empty scope, otherwise continued from the last
registered symbol of that scope. -/
def next_slot (tbl : SymbolTable) (sc : Scope) : Nat × Nat :=
  match (tbl.table.filter (fun s => decide (s.scope = sc))).getLast? with
  | none => (1, 0)
  | some pre => (pre.pos + element_count pre, pre.offset + byte_size_code tbl pre)

/-- Layout the amended claim predicts for a run of registrations: each symbol
takes the running position and offset, which then advance by its element
count and by its byte advance (element count times the table width of its
value type, pointers included). -/
def assign_syms (tbl : SymbolTable) (p o : Nat) : List Symbol → List Symbol
  | [] => []
  | s :: ss =>
    { s with pos := p, offset := o, size := tbl.spec_size s.t s.strt s.members } ::
      assign_syms tbl (p + element_count s) (o + byte_size_code tbl s) ss

/-- assign_syms ignores which table it reads widths from. -/
theorem assign_syms_irrel (tbl tbl' : SymbolTable) (syms : List Symbol) :
    ∀ (p o : Nat), assign_syms tbl p o syms = assign_syms tbl' p o syms := by
  induction syms with
  | nil => intro p o; rfl
  | cons s ss ih =>
    intro p o
    simp only [assign_syms, spec_size_irrel tbl tbl', byte_size_code_irrel tbl tbl', ih]

/-- register_variable appends exactly one symbol, at the slot next_slot
computes, with the spec-modelled footprint as its size. -/
theorem register_variable_eq (tbl : SymbolTable) (sym : Symbol) (p o : Nat)
    (h : next_slot tbl sym.scope = (p, o)) :
    tbl.register_variable sym =
      ⟨tbl.table ++ [{ sym with
         pos := p
         offset := o
         size := tbl.spec_size sym.t sym.strt sym.members }]⟩ := by
  unfold next_slot at h
  unfold SymbolTable.register_variable
  cases hl : (tbl.table.filter (fun s => decide (s.scope = sym.scope))).getLast? with
  | none =>
    rw [hl] at h
    cases h
    rfl
  | some pre =>
    rw [hl] at h
    cases h
    cases hstrt : pre.strt with
    | Array v =>
      simp only [hstrt, element_count, byte_size_code, foldl_mul_one]
    | Identifier => simp [hstrt, element_count, byte_size_code]
    | Pointer => simp [hstrt, element_count, byte_size_code]
    | Struct => simp [hstrt, element_count, byte_size_code]
    | Unknown => simp [hstrt, element_count, byte_size_code]

/-- Appending one symbol of the scope moves the scope's next slot past it. -/
theorem next_slot_concat (tbl : SymbolTable) (sc : Scope) (x : Symbol)
    (hx : x.scope = sc) :
    next_slot ⟨tbl.table ++ [x]⟩ sc =
      (x.pos + element_count x, x.offset + byte_size_code tbl x) := by
  unfold next_slot
  rw [List.filter_append]
  have hfp : List.filter (fun s' => decide (s'.scope = sc)) [x] = [x] := by
    simp [hx]
  rw [hfp, List.getLast?_concat]
  show (x.pos + element_count x,
    x.offset + byte_size_code (⟨tbl.table ++ [x]⟩ : SymbolTable) x) = _
  rw [byte_size_code_irrel (⟨tbl.table ++ [x]⟩ : SymbolTable) tbl]

/-- Folding register_sym over fresh, distinctly-named symbols of one
non-function scope appends exactly the assign_syms layout, continuing from
the scope's next slot. -/
theorem register_fold_aux (sc : Scope) (hsc : sc ≠ .Func) (tbl0 : SymbolTable)
    (syms : List Symbol) :
    ∀ (tbl : SymbolTable) (p o : Nat),
      (∀ s ∈ syms, s.scope = sc) →
      (∀ s ∈ syms, tbl.search sc s.var = none) →
      syms.Pairwise (fun a b => a.var ≠ b.var) →
      next_slot tbl sc = (p, o) →
      (syms.foldl SymbolTable.register_sym tbl).table =
        tbl.table ++ assign_syms tbl0 p o syms := by
  induction syms with
  | nil =>
    intro tbl p o _ _ _ _
    simp [assign_syms]
  | cons s ss ih =>
    intro tbl p o hscope hsearch hpw hslot
    have hs_scope : s.scope = sc := hscope s (by simp)
    have hs_none : tbl.search sc s.var = none := hsearch s (by simp)
    have hreg : tbl.register_sym s = tbl.register_variable s := by
      unfold SymbolTable.register_sym
      rw [hs_scope, hs_none]
      cases sc with
      | Func => exact absurd rfl hsc
      | Global => rfl
      | Local nm => rfl
      | Block nm => rfl
      | Unknown => rfl
    have hslot2 : next_slot tbl s.scope = (p, o) := by rw [hs_scope]; exact hslot
    have hrv := register_variable_eq tbl s p o hslot2
    set patched : Symbol :=
      { s with pos := p, offset := o, size := tbl.spec_size s.t s.strt s.members }
      with hpatched
    have hpw' := List.pairwise_cons.mp hpw
    have hsearch' : ∀ s' ∈ ss,
        (⟨tbl.table ++ [patched]⟩ : SymbolTable).search sc s'.var = none := by
      intro s' hmem
      have h1 : tbl.search sc s'.var = none := hsearch s' (by simp [hmem])
      have hne : s.var ≠ s'.var := hpw'.1 s' hmem
      unfold SymbolTable.search at h1 ⊢
      rw [List.find?_append, h1]
      have hvar : patched.var = s.var := rfl
      simp [List.find?, hvar, hne]
    have hps : patched.scope = sc := by
      rw [show patched.scope = s.scope from rfl, hs_scope]
    have hslot' : next_slot (⟨tbl.table ++ [patched]⟩ : SymbolTable) sc =
        (p + element_count s, o + byte_size_code tbl0 s) := by
      rw [next_slot_concat tbl sc patched hps]
      have e1 : byte_size_code tbl patched = byte_size_code tbl0 s := by
        rw [byte_size_code_irrel tbl tbl0]
        rfl
      rw [e1]
      rfl
    have hrec := ih ⟨tbl.table ++ [patched]⟩ (p + element_count s)
      (o + byte_size_code tbl0 s)
      (fun s' h => hscope s' (by simp [h])) hsearch' hpw'.2 hslot'
    calc ((s :: ss).foldl SymbolTable.register_sym tbl).table
        = (ss.foldl SymbolTable.register_sym
            (⟨tbl.table ++ [patched]⟩ : SymbolTable)).table := by
          rw [List.foldl_cons, hreg, hrv]
      _ = tbl.table ++ [patched] ++ assign_syms tbl0 (p + element_count s)
            (o + byte_size_code tbl0 s) ss := hrec
      _ = tbl.table ++ assign_syms tbl0 p o (s :: ss) := by
          rw [List.append_assoc]
          simp only [assign_syms, hpatched, spec_size_irrel tbl tbl0,
            byte_size_code_irrel tbl tbl0, List.singleton_append]

/-- Element of the predicted layout: the i-th registered symbol carries
position 1 plus the element counts of its predecessors and offset equal to
the summed byte advances of its predecessors. -/
theorem assign_syms_get? (tbl0 : SymbolTable) (syms : List Symbol) :
    ∀ (p o i : Nat) (si : Symbol),
      syms.get? i = some si →
      (assign_syms tbl0 p o syms).get? i =
        some { si with
          pos := p + ((syms.take i).map element_count).sum
          offset := o + ((syms.take i).map (byte_size_code tbl0)).sum
          size := tbl0.spec_size si.t si.strt si.members } := by
  induction syms with
  | nil => intro p o i si h; simp at h
  | cons s ss ih =>
    intro p o i si h
    cases i with
    | zero =>
      simp only [List.get?] at h
      cases h
      simp [assign_syms]
    | succ i =>
      simp only [List.get?] at h
      have hih := ih (p + element_count s) (o + byte_size_code tbl0 s) i si h
      simp only [assign_syms, List.get?, hih, List.take_succ_cons, List.map_cons,
        List.sum_cons]
      congr 2 <;> omega

/-- C2 amended.  For every run of distinctly-named symbols registered into a
non-function scope previously empty in the table: the table grows by exactly
the predicted layout, in which the first symbol has position 1 and offset 0
and each later symbol continues the previous one's position by its element
count and offset by its byte size — where byte size is element count times
the table's width for the value type for scalars and pointers alike (the
pointer width is never consulted; for int/char pointers the value-type width
happens to coincide with it), so offsets equal the cumulative such footprint
of all prior same-scope symbols. -/
theorem c2_scope_layout (sc : Scope) (syms : List Symbol) (tbl : SymbolTable)
    (hsc : sc ≠ .Func)
    (hscope : ∀ s ∈ syms, s.scope = sc)
    (hnames : syms.Pairwise (fun a b => a.var ≠ b.var))
    (hbase : ∀ s ∈ tbl.table, s.scope ≠ sc) :
    (syms.foldl SymbolTable.register_sym tbl).table =
      tbl.table ++ assign_syms tbl 1 0 syms ∧
    (∀ (i : Nat) (si : Symbol), syms.get? i = some si →
      (assign_syms tbl 1 0 syms).get? i =
        some { si with
          pos := 1 + ((syms.take i).map element_count).sum
          offset := ((syms.take i).map (byte_size_code tbl)).sum
          size := tbl.spec_size si.t si.strt si.members }) := by
  constructor
  · have hsearch : ∀ s ∈ syms, tbl.search sc s.var = none := by
      intro s _
      unfold SymbolTable.search
      refine List.find?_eq_none.mpr ?_
      intro x hx
      simp [hbase x hx]
    have hslot : next_slot tbl sc = (1, 0) := by
      unfold next_slot
      have hfil : tbl.table.filter (fun s => decide (s.scope = sc)) = [] := by
        refine List.filter_eq_nil_iff.mpr ?_
        intro a ha
        simp [hbase a ha]
      rw [hfil]
      rfl
    exact register_fold_aux sc hsc tbl syms tbl 1 0 hscope hsearch hnames hslot
  · intro i si h
    have hgot := assign_syms_get? tbl syms 1 0 i si h
    simpa using hgot

/-- Symbols registered by the C2 witness: a scalar, a 2x3 array, a scalar. -/
def c2w_syms : List Symbol :=
  [Symbol.new (.Local "g") "x" .Int .Identifier,
   Symbol.new (.Local "g") "arr" .Int (.Array [2, 3]),
   Symbol.new (.Local "g") "y" .Char .Identifier]

/-- C2 witness: the layout theorem applied to an int scalar, an int a[2][3]
and a char scalar registered into an empty table — the last symbol lands at
position 1+1+6 and offset 8+48. -/
theorem c2_scope_layout_witness :
    (c2w_syms.foldl SymbolTable.register_sym SymbolTable.new).table =
      SymbolTable.new.table ++ assign_syms SymbolTable.new 1 0 c2w_syms ∧
    (assign_syms SymbolTable.new 1 0 c2w_syms).get? 2 =
      some { Symbol.new (.Local "g") "y" .Char .Identifier with
        pos := 8, offset := 56, size := 8 } := by
  have h := c2_scope_layout (.Local "g") c2w_syms SymbolTable.new
    (by decide)
    (by intro s hs; fin_cases hs <;> rfl)
    (by
      refine List.Pairwise.cons ?_ (List.Pairwise.cons ?_ (List.Pairwise.cons ?_ .nil))
      · intro b hb
        fin_cases hb <;> decide
      · intro b hb
        fin_cases hb <;> decide
      · intro b hb
        exact absurd hb (List.not_mem_nil b))
    (by intro s hs; simp [SymbolTable.new] at hs)
  refine ⟨h.1, ?_⟩
  have h2 := h.2 2 (Symbol.new (.Local "g") "y" .Char .Identifier) rfl
  simpa using h2

/-- A non-bracket token selects the default arm of the bracket dispatch. -/
theorem token_match_default {α : Sort _} (tk : Token) (hne : tk ≠ .LeftBracket) (a b : α) :
    (match tk with | Token.LeftBracket => a | _ => b) = b := by
  cases tk
  case LeftBracket => exact absurd rfl hne
  all_goals rfl

set_option maxHeartbeats 3200000 in
/-- C4.  For every parsed index expression a[i][j] over an array declared
with shape [d0, d1]: when the cursor sits on the variable token followed by
an opening bracket and the two index expressions parse as e1 and e2 (each
followed by its closing bracket, the first followed by another opening
bracket and the second by any other token), the variable rule produces
exactly the desugared tree *(a + (e1*d1 + e2)) — an Indirect node around the
sum of the variable and an offset expression that is structurally
Plus (Multiple e1 (Factor d1)) e2, built right-to-left so that only the
trailing dimension d1 multiplies the leading index. -/
theorem c4_array_index_desugar (h : Nat) (t : Ty) (d0 d1 : Nat) (vname : String)
    (st stE1 stE2 : PSt) (e1 e2 : AstType)
    (lb1 rb1 lb2 rb2 : String) (tk2ty : Token) (tk2val : String)
    (h1 : st.tokens.get? st.pos = some ⟨.Variable, vname⟩)
    (h2 : st.tokens.get? (st.pos + 1) = some ⟨.LeftBracket, lb1⟩)
    (h3 : expression (h + 1) { st with pos := st.pos + 2 } = some (e1, stE1))
    (h4 : stE1.tokens.get? stE1.pos = some ⟨.RightBracket, rb1⟩)
    (h5 : stE1.tokens.get? (stE1.pos + 1) = some ⟨.LeftBracket, lb2⟩)
    (h6 : expression h { stE1 with pos := stE1.pos + 2 } = some (e2, stE2))
    (h7 : stE2.tokens.get? stE2.pos = some ⟨.RightBracket, rb2⟩)
    (h8 : stE2.tokens.get? (stE2.pos + 1) = some ⟨tk2ty, tk2val⟩)
    (h9 : tk2ty ≠ .LeftBracket) :
    variableP (h + 3) t (.Array [d0, d1]) st =
      some (.Indirect (.Plus (.Variable t (.Array [d0, d1]) vname)
        (.Plus (.Multiple e1 (.Factor (d1 : Int))) e2)),
        { stE2 with pos := stE2.pos + 1 }) := by
  rcases st with ⟨toks, pos, strc, csc, tb⟩
  rcases stE1 with ⟨toks1, pos1, strc1, csc1, tb1⟩
  rcases stE2 with ⟨toks2, pos2, strc2, csc2, tb2⟩
  simp only at h1 h2 h3 h4 h5 h6 h7 h8
  simp only [List.get?_eq_getElem?] at h1 h2 h4 h5 h7 h8
  simp [variableP, array_index, next_consume, nextTok, consume, must_next,
    h1, h2, h3, h4, h5, h6, h7, h8, List.get?, token_match_default _ h9]

/-- Symbol table of the C4 witness: int b and int c in the scope of f. -/
def c4w_tbl : SymbolTable :=
  (SymbolTable.new.register_sym (Symbol.new (.Local "f") "b" .Int .Identifier)).register_sym
    (Symbol.new (.Local "f") "c" .Int .Identifier)

/-- Token stream of the C4 witness: a [ b ] [ c ] ; . -/
def c4w_st : PSt :=
  ⟨[⟨.Variable, "a"⟩, ⟨.LeftBracket, "["⟩, ⟨.Variable, "b"⟩, ⟨.RightBracket, "]"⟩,
    ⟨.LeftBracket, "["⟩, ⟨.Variable, "c"⟩, ⟨.RightBracket, "]"⟩, ⟨.SemiColon, ";"⟩],
   0, 0, .Local "f", c4w_tbl⟩

set_option maxHeartbeats 6400000 in
/-- C4 witness: a[b][c] over declared shape [2, 3] desugars to
*(a + (b*3 + c)), by the desugaring theorem at a concrete stream. -/
theorem c4_array_index_desugar_witness :
    variableP 15 .Int (.Array [2, 3]) c4w_st =
      some (.Indirect (.Plus (.Variable .Int (.Array [2, 3]) "a")
        (.Plus (.Multiple (.Variable .Int .Identifier "b") (.Factor 3))
          (.Variable .Int .Identifier "c"))),
        ⟨c4w_st.tokens, 7, 0, .Local "f", c4w_tbl⟩) := by
  have hc := c4_array_index_desugar 12 .Int 2 3 "a" c4w_st
    ⟨c4w_st.tokens, 3, 0, .Local "f", c4w_tbl⟩
    ⟨c4w_st.tokens, 6, 0, .Local "f", c4w_tbl⟩
    (.Variable .Int .Identifier "b") (.Variable .Int .Identifier "c")
    "[" "]" "[" "]" .SemiColon ";" rfl rfl (by rfl) rfl rfl (by rfl) rfl rfl (by decide)
  simpa using hc

end RC
